import Mathlib

/-!
# Verification of the `network_awareness` forwarding core

Shallow embedding of `ryu/app/network_awareness/find_circle.py` and
`ryu/app/network_awareness/shortest_forwarding.py`, together with theorems
settling the specification claims about cycle enumeration, backup-aware
flow programming, and the reactive dispatcher.

Python lists are modelled as Lean `List`s; mutation is modelled by explicit
state passing.  Python integers are `Nat` (ports, dpids, ips) or `Int`
(cycle directions, list indices that may be negative).  Python `None` and
exceptions (`IndexError`, `TypeError`, `KeyError`) are modelled with
`Option` and an explicit `crashed` flag in the threaded state.
-/

namespace Ryu

/-! ## Python list primitives -/

/-- Python `l[i]` for a possibly negative index `i`: negative indices count
from the end; an out-of-range index yields `none` (an `IndexError`). -/
def pyGet {α : Type} (l : List α) (i : Int) : Option α :=
  if 0 ≤ i then l.get? i.toNat
  else if (-i).toNat ≤ l.length then l.get? (l.length - (-i).toNat)
  else none

/-- Python `l.index(a)`: index of the first occurrence, `none` (a
`ValueError`) when the element is absent. -/
def pyIndexOpt {α : Type} [DecidableEq α] (l : List α) (a : α) : Option Nat :=
  if a ∈ l then some (l.indexOf a) else none

/-! ## `find_circle.py` -/

/-- Recursion core of `find_cir_starts_with`.  The Python recursion
terminates because `len(path)` grows towards `length-1`; `fuel` is the
measure `length - len(path)` made explicit so that the recursion is
structural (the `fuel = 0` fallback is unreachable for aligned fuel, since
the recursive branch requires `len(path) < length - 1`). -/
def fcswGo (G : Nat → List Nat) (length : Nat) :
    Nat → List Nat → List (List Nat) → Nat × List (List Nat)
  | fuel, path, cir_list =>
    if path.length = length - 1 then
      (G (path.getLastD 0)).foldl
        (fun (acc : Nat × List (List Nat)) i =>
          if path.getD 1 0 < i ∧ i ∉ path ∧ path.headD 0 ∈ G i then
            (acc.1 + 1, acc.2 ++ [path ++ [i]])
          else acc)
        (0, cir_list)
    else if path.length < length - 1 then
      match fuel with
      | 0 => (0, cir_list)
      | fuel + 1 =>
        (G (path.getLastD 0)).foldl
          (fun (acc : Nat × List (List Nat)) i =>
            if path.headD 0 < i ∧ i ∉ path then
              let r := fcswGo G length fuel (path ++ [i]) acc.2
              (acc.1 + r.1, r.2)
            else acc)
          (0, cir_list)
    else (0, cir_list)

/-- Shallow embedding of `find_cir_starts_with(G, length, path, cir_list)`.

The Python function mutates `cir_list` in place and returns a count; here it
returns `(cnt, cir_list)`.  When `len(path) > length-1` the Python recursion
can never close a cycle and returns `0` without appending; `fcswGo` returns
that branch directly. -/
def find_cir_starts_with (G : Nat → List Nat) (length : Nat) (path : List Nat)
    (cir_list : List (List Nat)) : Nat × List (List Nat) :=
  fcswGo G length (length - path.length) path cir_list

/-- Shallow embedding of `find_cir_of_length(G, n, length, cir_list)`.
Python iterates `i in range(1, n-length+2)`, i.e. the `max 0 (n+1-length)`
integers starting at `1`. -/
def find_cir_of_length (G : Nat → List Nat) (n length : Nat)
    (cir_list : List (List Nat)) : Nat × List (List Nat) :=
  (List.range' 1 (n + 1 - length)).foldl
    (fun (acc : Nat × List (List Nat)) i =>
      let r := find_cir_starts_with G length [i] acc.2
      (acc.1 + r.1, r.2))
    (0, cir_list)

/-- Shallow embedding of `find_all_cirs(G, n, cir_list)`: clears `cir_list`
(so the accumulator restarts from `[]`) and enumerates lengths
`range(3, n+1)`. -/
def find_all_cirs (G : Nat → List Nat) (n : Nat)
    (_cir_list : List (List Nat)) : Nat × List (List Nat) :=
  (List.range' 3 (n + 1 - 3)).foldl
    (fun (acc : Nat × List (List Nat)) i =>
      let r := find_cir_of_length G n i acc.2
      (acc.1 + r.1, r.2))
    (0, ([] : List (List Nat)))

/-- The example graph from the top of `find_circle.py`. -/
def Gfile : Nat → List Nat
  | 1 => [2, 3]
  | 2 => [1, 3]
  | 3 => [1, 2, 4]
  | 4 => [3]
  | _ => []

example : (find_all_cirs Gfile 4 []).2 = [[1, 2, 3]] := by decide
example : (find_all_cirs Gfile 4 []).1 = 1 := by decide

/-! ### Delta view of the enumeration

Each enumeration function appends a list of cycles to its accumulator and
returns the number of cycles appended.  `cirExts` is that appended list for
`fcswGo`, computed without the accumulator. -/

/-- The cycles appended by one call of `fcswGo`, without the accumulator. -/
def cirExts (G : Nat → List Nat) (len : Nat) : Nat → List Nat → List (List Nat)
  | fuel, path =>
    if path.length = len - 1 then
      (G (path.getLastD 0)).flatMap fun i =>
        if path.getD 1 0 < i ∧ i ∉ path ∧ path.headD 0 ∈ G i then [path ++ [i]] else []
    else if path.length < len - 1 then
      match fuel with
      | 0 => []
      | fuel + 1 =>
        (G (path.getLastD 0)).flatMap fun i =>
          if path.headD 0 < i ∧ i ∉ path then cirExts G len fuel (path ++ [i]) else []
    else []

lemma foldl_delta {α β : Type} (step : (Nat × List β) → α → (Nat × List β))
    (g : α → List β)
    (hstep : ∀ c d i, step (c, d) i = (c + (g i).length, d ++ g i)) :
    ∀ (l : List α) (c : Nat) (d : List β),
      l.foldl step (c, d) = (c + (l.flatMap g).length, d ++ l.flatMap g)
  | [], c, d => by simp
  | i :: l, c, d => by
    rw [List.foldl_cons, hstep, foldl_delta step g hstep l]
    simp [List.flatMap_cons]
    omega

lemma fcswGo_spec (G : Nat → List Nat) (len : Nat) :
    ∀ (fuel : Nat) (path : List Nat) (cl : List (List Nat)),
      fcswGo G len fuel path cl
        = ((cirExts G len fuel path).length, cl ++ cirExts G len fuel path) := by
  intro fuel
  induction fuel with
  | zero =>
    intro path cl
    rw [fcswGo, cirExts]
    split
    · have h := foldl_delta
        (fun (acc : Nat × List (List Nat)) i =>
          if path.getD 1 0 < i ∧ i ∉ path ∧ path.headD 0 ∈ G i then
            (acc.1 + 1, acc.2 ++ [path ++ [i]])
          else acc)
        (fun i =>
          if path.getD 1 0 < i ∧ i ∉ path ∧ path.headD 0 ∈ G i then [path ++ [i]] else [])
        (by intro c d i; dsimp only; split <;> simp)
        (G (path.getLastD 0)) 0 cl
      simpa using h
    · split
      · simp
      · simp
  | succ fuel ih =>
    intro path cl
    rw [fcswGo, cirExts]
    split
    · have h := foldl_delta
        (fun (acc : Nat × List (List Nat)) i =>
          if path.getD 1 0 < i ∧ i ∉ path ∧ path.headD 0 ∈ G i then
            (acc.1 + 1, acc.2 ++ [path ++ [i]])
          else acc)
        (fun i =>
          if path.getD 1 0 < i ∧ i ∉ path ∧ path.headD 0 ∈ G i then [path ++ [i]] else [])
        (by intro c d i; dsimp only; split <;> simp)
        (G (path.getLastD 0)) 0 cl
      simpa using h
    · split
      · have h := foldl_delta
          (fun (acc : Nat × List (List Nat)) i =>
            if path.headD 0 < i ∧ i ∉ path then
              let r := fcswGo G len fuel (path ++ [i]) acc.2
              (acc.1 + r.1, r.2)
            else acc)
          (fun i =>
            if path.headD 0 < i ∧ i ∉ path then cirExts G len fuel (path ++ [i]) else [])
          (by intro c d i; dsimp only; split <;> simp [ih])
          (G (path.getLastD 0)) 0 cl
        simpa using h
      · simp

lemma find_cir_starts_with_spec (G : Nat → List Nat) (len : Nat)
    (path : List Nat) (cl : List (List Nat)) :
    find_cir_starts_with G len path cl
      = ((cirExts G len (len - path.length) path).length,
         cl ++ cirExts G len (len - path.length) path) := by
  rw [find_cir_starts_with, fcswGo_spec]

/-- The cycles appended by `find_cir_of_length`. -/
def ofLenCirs (G : Nat → List Nat) (n len : Nat) : List (List Nat) :=
  (List.range' 1 (n + 1 - len)).flatMap fun v => cirExts G len (len - 1) [v]

lemma find_cir_of_length_spec (G : Nat → List Nat) (n len : Nat)
    (cl : List (List Nat)) :
    find_cir_of_length G n len cl
      = ((ofLenCirs G n len).length, cl ++ ofLenCirs G n len) := by
  rw [find_cir_of_length, ofLenCirs]
  have h := foldl_delta
    (fun (acc : Nat × List (List Nat)) i =>
      let r := find_cir_starts_with G len [i] acc.2
      (acc.1 + r.1, r.2))
    (fun v => cirExts G len (len - 1) [v])
    (by intro c d i; simp [find_cir_starts_with_spec])
    (List.range' 1 (n + 1 - len)) 0 cl
  simpa using h

/-- The cycles produced by `find_all_cirs` (the accumulator is cleared, so
this is the full result). -/
def allCirs (G : Nat → List Nat) (n : Nat) : List (List Nat) :=
  (List.range' 3 (n + 1 - 3)).flatMap fun len => ofLenCirs G n len

lemma find_all_cirs_spec (G : Nat → List Nat) (n : Nat)
    (cl : List (List Nat)) :
    find_all_cirs G n cl = ((allCirs G n).length, allCirs G n) := by
  rw [find_all_cirs, allCirs]
  have := foldl_delta
    (fun (acc : Nat × List (List Nat)) i =>
      let r := find_cir_of_length G n i acc.2
      (acc.1 + r.1, r.2))
    (fun len => ofLenCirs G n len)
    (by intro c d i; simp [find_cir_of_length_spec])
    (List.range' 3 (n + 1 - 3)) 0 []
  simpa using this

/-! ### List index helpers -/

lemma headD_eq_getD (l : List Nat) : l.headD 0 = l.getD 0 0 := by
  cases l <;> rfl

lemma getLastD_eq_getD (l : List Nat) (h : l ≠ []) :
    l.getLastD 0 = l.getD (l.length - 1) 0 := by
  rcases (List.eq_nil_or_concat l) with rfl | ⟨l', b, rfl⟩
  · exact absurd rfl h
  · rw [List.concat_eq_append, List.getLastD_concat,
        List.getD_append_right _ _ _ _ (by simp)]
    simp

lemma prefix_getD {p L : List Nat} (h : p <+: L) {m : Nat} (hm : m < p.length) :
    L.getD m 0 = p.getD m 0 := by
  have hlen := h.length_le
  rw [List.getD_eq_getElem L 0 (lt_of_lt_of_le hm hlen),
      List.getD_eq_getElem p 0 hm, h.getElem hm]

lemma prefix_take {p L : List Nat} (h : p <+: L) : L.take p.length = p :=
  (List.prefix_iff_eq_take.mp h).symm

lemma prefix_snoc {p L : List Nat} (h : p <+: L) (hl : p.length < L.length) :
    p ++ [L.getD p.length 0] <+: L := by
  have ht : L.take (p.length + 1) = p ++ [L.getD p.length 0] := by
    rw [List.take_succ, prefix_take h, List.getElem?_eq_getElem hl]
    simp [List.getD_eq_getElem L 0 hl, List.getElem?_eq_getElem hl]
  rw [← ht]
  exact List.take_prefix _ _

lemma drop_pred_singleton {L : List Nat} {len : Nat} (hL : L.length = len)
    (h1 : 1 ≤ len) : L.drop (len - 1) = [L.getD (len - 1) 0] := by
  have hlt : len - 1 < L.length := by omega
  rw [List.drop_eq_getElem_cons hlt, List.getD_eq_getElem L 0 hlt]
  have : L.drop (len - 1 + 1) = [] := List.drop_eq_nil_of_le (by omega)
  rw [this]

lemma nodup_iff_getD_take (L : List Nat) :
    L.Nodup ↔ ∀ m, m < L.length → L.getD m 0 ∉ L.take m := by
  constructor
  · intro hnd m hm hmem
    rcases List.mem_take_iff_getElem.mp hmem with ⟨i, hi, hieq⟩
    have hi2 : i < L.length := lt_of_lt_of_le (lt_min_iff.mp hi).2 le_rfl
    rw [List.getD_eq_getElem L 0 hm] at hieq
    have := List.nodup_iff_injective_get.mp hnd
      (show L.get ⟨i, hi2⟩ = L.get ⟨m, hm⟩ by
        simpa [List.get_eq_getElem] using hieq)
    have : i = m := congrArg Fin.val this
    omega
  · intro h
    rw [List.nodup_iff_injective_get]
    intro ⟨i, hi⟩ ⟨j, hj⟩ hij
    simp only [List.get_eq_getElem] at hij
    rcases Nat.lt_trichotomy i j with hlt | heq | hgt
    · exfalso
      refine h j hj ?_
      rw [List.getD_eq_getElem L 0 hj, ← hij]
      exact List.mem_take_iff_getElem.mpr ⟨i, by omega, rfl⟩
    · exact Fin.ext heq
    · exfalso
      refine h i hi ?_
      rw [List.getD_eq_getElem L 0 hi, hij]
      exact List.mem_take_iff_getElem.mpr ⟨j, by omega, rfl⟩

/-! ### Canonical cycles -/

/-- A simple cycle of length `k` in canonical form (spec §4.1): the list
starts at its smallest-labelled vertex, consecutive elements (and the pair
last/first) are adjacent, and the second element is smaller than the last
one. -/
def IsCanonicalCycle (G : Nat → List Nat) (k : Nat) (L : List Nat) : Prop :=
  L.length = k ∧ L.Nodup ∧
  (∀ m, m < k → 0 < m → L.getD m 0 ∈ G (L.getD (m - 1) 0)) ∧
  L.getD 0 0 ∈ G (L.getD (k - 1) 0) ∧
  (∀ m, m < k → 0 < m → L.getD 0 0 < L.getD m 0) ∧
  L.getD 1 0 < L.getD (k - 1) 0

instance (G : Nat → List Nat) (k : Nat) (L : List Nat) :
    Decidable (IsCanonicalCycle G k L) :=
  inferInstanceAs (Decidable (L.length = k ∧ L.Nodup ∧
    (∀ m, m < k → 0 < m → L.getD m 0 ∈ G (L.getD (m - 1) 0)) ∧
    L.getD 0 0 ∈ G (L.getD (k - 1) 0) ∧
    (∀ m, m < k → 0 < m → L.getD 0 0 < L.getD m 0) ∧
    L.getD 1 0 < L.getD (k - 1) 0))

/-- Position-level description of the lists appended by `fcswGo` below a
given partial path: `L` extends `path` to length `len`, every new vertex is
adjacent to its predecessor, fresh, and larger than the start vertex, and
the closing vertex additionally beats `L[1]` and is adjacent to `L[0]`. -/
def ExtSpec (G : Nat → List Nat) (len : Nat) (path L : List Nat) : Prop :=
  path <+: L ∧ L.length = len ∧
  (∀ m, path.length ≤ m → m + 1 < len →
      L.getD m 0 ∈ G (L.getD (m - 1) 0) ∧ L.getD 0 0 < L.getD m 0 ∧
      L.getD m 0 ∉ L.take m) ∧
  L.getD (len - 1) 0 ∈ G (L.getD (len - 2) 0) ∧
  L.getD 1 0 < L.getD (len - 1) 0 ∧
  L.getD (len - 1) 0 ∉ L.take (len - 1) ∧
  L.getD 0 0 ∈ G (L.getD (len - 1) 0)

lemma mem_cirExts_base_iff (G : Nat → List Nat) (len : Nat) (h3 : 3 ≤ len)
    (path : List Nat) (hne : path ≠ []) (hpl : path.length = len - 1)
    (L : List Nat) :
    (L ∈ (G (path.getLastD 0)).flatMap fun i =>
        if path.getD 1 0 < i ∧ i ∉ path ∧ path.headD 0 ∈ G i then
          [path ++ [i]] else [])
      ↔ ExtSpec G len path L := by
  rw [List.mem_flatMap]
  constructor
  · rintro ⟨i, hiG, hmem⟩
    rw [apply_ite (L ∈ ·)] at hmem
    split at hmem
    case isFalse => simp at hmem
    case isTrue hcond =>
      have hL : L = path ++ [i] := by simpa using hmem
      subst hL
      obtain ⟨h1, h2, h0⟩ := hcond
      have hLlen : (path ++ [i]).length = len := by simp; omega
      have hgetpl : (path ++ [i]).getD (len - 1) 0 = i := by
        rw [← hpl, List.getD_append_right _ _ _ _ le_rfl]
        simp
      have htake : (path ++ [i]).take (len - 1) = path := List.take_left' hpl
      have hlow : ∀ m, m < len - 1 → (path ++ [i]).getD m 0 = path.getD m 0 := by
        intro m hm
        exact List.getD_append _ _ _ _ (by omega)
      refine ⟨List.prefix_append _ _, hLlen, ?_, ?_, ?_, ?_, ?_⟩
      · intro m hm hm2; omega
      · rw [hgetpl, hlow (len - 2) (by omega)]
        rwa [getLastD_eq_getD path hne, hpl] at hiG
      · rw [hgetpl, hlow 1 (by omega)]
        exact h1
      · rw [hgetpl, htake]
        exact h2
      · rw [hgetpl, hlow 0 (by omega)]
        rwa [headD_eq_getD] at h0
  · rintro ⟨hpre, hLlen, _hmid, hclose, hsecond, hfresh, hback⟩
    refine ⟨L.getD (len - 1) 0, ?_, ?_⟩
    · rw [getLastD_eq_getD path hne, hpl]
      rwa [prefix_getD hpre (by omega)] at hclose
    · have htake : L.take (len - 1) = path := by
        rw [← hpl]; exact prefix_take hpre
      have hLeq : L = path ++ [L.getD (len - 1) 0] := by
        conv_lhs => rw [← List.take_append_drop (len - 1) L]
        rw [htake, drop_pred_singleton hLlen (by omega)]
      rw [if_pos ?_]
      · rw [List.mem_singleton]
        exact hLeq
      · refine ⟨?_, ?_, ?_⟩
        · rwa [← prefix_getD hpre (by omega)]
        · rw [← htake]; exact hfresh
        · rw [headD_eq_getD, ← prefix_getD hpre (by omega)]
          exact hback

lemma mem_cirExts_step_iff (G : Nat → List Nat) (len fuel : Nat)
    (path : List Nat) (hne : path ≠ []) (hpl : path.length + 1 < len)
    (hIH : ∀ i L, L ∈ cirExts G len fuel (path ++ [i]) ↔
        ExtSpec G len (path ++ [i]) L)
    (L : List Nat) :
    (L ∈ (G (path.getLastD 0)).flatMap fun i =>
        if path.headD 0 < i ∧ i ∉ path then cirExts G len fuel (path ++ [i])
        else [])
      ↔ ExtSpec G len path L := by
  have hne' : 0 < path.length := List.length_pos.mpr hne
  rw [List.mem_flatMap]
  constructor
  · rintro ⟨i, hiG, hmem⟩
    rw [apply_ite (L ∈ ·)] at hmem
    split at hmem
    case isFalse => simp at hmem
    case isTrue hcond =>
      obtain ⟨hpre', hLlen, hmid', hclose, hsecond, hfresh, hback⟩ :=
        (hIH i L).mp hmem
      have hpre : path <+: L := (List.prefix_append _ _).trans hpre'
      have hgetpl : L.getD path.length 0 = i := by
        rw [prefix_getD hpre' (by simp),
            List.getD_append_right _ _ _ _ le_rfl]
        simp
      have htake : L.take path.length = path := prefix_take hpre
      refine ⟨hpre, hLlen, ?_, hclose, hsecond, hfresh, hback⟩
      intro m hm hm2
      rcases Nat.eq_or_lt_of_le hm with heq | hlt
      · refine ⟨?_, ?_, ?_⟩
        · rw [← heq, hgetpl, prefix_getD hpre (by omega),
              ← getLastD_eq_getD path hne]
          exact hiG
        · rw [← heq, hgetpl, prefix_getD hpre (by omega)]
          rw [headD_eq_getD] at hcond
          exact hcond.1
        · rw [← heq, hgetpl, htake]
          exact hcond.2
      · exact hmid' m (by simp; omega) hm2
  · rintro ⟨hpre, hLlen, hmid, hclose, hsecond, hfresh, hback⟩
    have hplL : path.length < L.length := by omega
    obtain ⟨hadj, hgt, hnotin⟩ := hmid path.length le_rfl (by omega)
    have htake : L.take path.length = path := prefix_take hpre
    refine ⟨L.getD path.length 0, ?_, ?_⟩
    · rw [getLastD_eq_getD path hne, ← prefix_getD hpre (by omega)]
      exact hadj
    · have hcond : path.headD 0 < L.getD path.length 0 ∧
          L.getD path.length 0 ∉ path := by
        constructor
        · rw [headD_eq_getD, ← prefix_getD hpre hne']
          exact hgt
        · rw [htake] at hnotin
          exact hnotin
      rw [if_pos hcond, hIH]
      have hpre' : path ++ [L.getD path.length 0] <+: L :=
        prefix_snoc hpre hplL
      refine ⟨hpre', hLlen, ?_, hclose, hsecond, hfresh, hback⟩
      intro m hm hm2
      rw [List.length_append, List.length_cons, List.length_nil] at hm
      exact hmid m (by omega) hm2

lemma mem_cirExts_iff (G : Nat → List Nat) (len : Nat) (h3 : 3 ≤ len) :
    ∀ (fuel : Nat) (path : List Nat), path ≠ [] →
      fuel + path.length = len → 1 ≤ fuel →
      ∀ L, L ∈ cirExts G len fuel path ↔ ExtSpec G len path L := by
  intro fuel
  induction fuel with
  | zero => intro path _ _ h1; omega
  | succ f ih =>
    intro path hne halign _ L
    by_cases hf : f = 0
    · subst hf
      rw [cirExts, if_pos (by omega)]
      exact mem_cirExts_base_iff G len h3 path hne (by omega) L
    · rw [cirExts, if_neg (by omega), if_pos (by omega)]
      exact mem_cirExts_step_iff G len f path hne (by omega)
        (fun i L' => ih (path ++ [i]) (by simp) (by simp; omega) (by omega) L')
        L

lemma mem_cirExts_prefix (G : Nat → List Nat) (len : Nat) :
    ∀ (fuel : Nat) (path L : List Nat),
      L ∈ cirExts G len fuel path → path <+: L := by
  intro fuel
  induction fuel with
  | zero =>
    intro path L hL
    rw [cirExts] at hL
    split at hL
    · rcases List.mem_flatMap.mp hL with ⟨i, _, hmem⟩
      split at hmem
      · rw [List.mem_singleton] at hmem
        subst hmem
        exact List.prefix_append _ _
      · simp at hmem
    · split at hL
      · exact absurd hL (List.not_mem_nil L)
      · simp at hL
  | succ f ih =>
    intro path L hL
    rw [cirExts] at hL
    split at hL
    · rcases List.mem_flatMap.mp hL with ⟨i, _, hmem⟩
      split at hmem
      · rw [List.mem_singleton] at hmem
        subst hmem
        exact List.prefix_append _ _
      · simp at hmem
    · split at hL
      · rcases List.mem_flatMap.mp hL with ⟨i, _, hmem⟩
        split at hmem
        · exact (List.prefix_append _ _).trans (ih _ _ hmem)
        · simp at hmem
      · simp at hL

lemma mem_cirExts_getD (G : Nat → List Nat) (len fuel : Nat)
    (path : List Nat) (a : Nat) (L : List Nat)
    (h : L ∈ cirExts G len fuel (path ++ [a])) : L.getD path.length 0 = a := by
  have hp := mem_cirExts_prefix G len fuel (path ++ [a]) L h
  rw [prefix_getD hp (by simp), List.getD_append_right _ _ _ _ le_rfl]
  simp

lemma nodup_cirExts (G : Nat → List Nat) (len : Nat)
    (hG : ∀ a, (G a).Nodup) :
    ∀ (fuel : Nat) (path : List Nat), (cirExts G len fuel path).Nodup := by
  intro fuel
  induction fuel with
  | zero =>
    intro path
    rw [cirExts]
    split
    · rw [List.nodup_flatMap]
      refine ⟨?_, ?_⟩
      · intro x _
        split <;> simp
      · refine List.Pairwise.imp ?_ (hG _)
        intro a b hab L hLa hLb
        dsimp only at hLa hLb
        split at hLa
        · split at hLb
          · rw [List.mem_singleton] at hLa hLb
            subst hLa
            exact hab (by simpa using hLb)
          · simp at hLb
        · simp at hLa
    · split
      · exact List.nodup_nil
      · simp
  | succ f ih =>
    intro path
    rw [cirExts]
    split
    · rw [List.nodup_flatMap]
      refine ⟨?_, ?_⟩
      · intro x _
        split <;> simp
      · refine List.Pairwise.imp ?_ (hG _)
        intro a b hab L hLa hLb
        dsimp only at hLa hLb
        split at hLa
        · split at hLb
          · rw [List.mem_singleton] at hLa hLb
            subst hLa
            exact hab (by simpa using hLb)
          · simp at hLb
        · simp at hLa
    · split
      · rw [List.nodup_flatMap]
        refine ⟨?_, ?_⟩
        · intro x _
          split
          · exact ih _
          · exact List.nodup_nil
        · refine List.Pairwise.imp ?_ (hG _)
          intro a b hab L hLa hLb
          dsimp only at hLa hLb
          split at hLa
          · split at hLb
            · have ha := mem_cirExts_getD G len f path a L hLa
              have hb := mem_cirExts_getD G len f path b L hLb
              exact hab (ha ▸ hb)
            · simp at hLb
          · simp at hLa
      · simp

lemma chain'_iff_getD (G : Nat → List Nat) (L : List Nat) :
    L.Chain' (fun a b => b ∈ G a) ↔
      ∀ i, i + 1 < L.length → L.getD (i + 1) 0 ∈ G (L.getD i 0) := by
  rw [List.chain'_iff_get]
  constructor
  · intro h i hi
    have h2 := h i (by omega)
    simp only [List.get_eq_getElem] at h2
    rwa [List.getD_eq_getElem L 0 (by omega : i + 1 < L.length),
      List.getD_eq_getElem L 0 (by omega : i < L.length)]
  · intro h i hi
    have h2 := h i (by omega)
    rw [List.getD_eq_getElem L 0 (by omega : i + 1 < L.length),
      List.getD_eq_getElem L 0 (by omega : i < L.length)] at h2
    simpa only [List.get_eq_getElem] using h2

lemma extSpec_singleton_iff (G : Nat → List Nat) (k : Nat) (h3 : 3 ≤ k)
    (v : Nat) (L : List Nat) :
    ExtSpec G k [v] L ↔ (L.getD 0 0 = v ∧ IsCanonicalCycle G k L) := by
  constructor
  · rintro ⟨hpre, hlen, hmid, hclose, hsecond, hfresh, hback⟩
    have hv : L.getD 0 0 = v := by
      rw [prefix_getD hpre (by simp)]
      rfl
    refine ⟨hv, hlen, ?_, ?_, hback, ?_, hsecond⟩
    · rw [nodup_iff_getD_take]
      intro m hm
      rcases Nat.eq_zero_or_pos m with rfl | hm0
      · simp
      · rcases Nat.lt_or_ge (m + 1) k with hmk | hmk
        · exact (hmid m (by simpa using hm0) hmk).2.2
        · have : m = k - 1 := by omega
          subst this
          exact hfresh
    · intro m hmk hm0
      rcases Nat.lt_or_ge (m + 1) k with hik | hik
      · exact (hmid m (by simp; omega) hik).1
      · have h1 : m = k - 1 := by omega
        subst h1
        have h2 : k - 1 - 1 = k - 2 := by omega
        rw [h2]
        exact hclose
    · intro m hmk hm0
      rcases Nat.lt_or_ge (m + 1) k with hmk2 | hmk2
      · exact (hmid m (by simpa using hm0) hmk2).2.1
      · have hm1 : m = k - 1 := by omega
        subst hm1
        have hstep : L.getD 0 0 < L.getD 1 0 :=
          (hmid 1 (by simp) (by omega)).2.1
        exact lt_trans hstep hsecond
  · rintro ⟨hv, hlen, hnd, hch, hback, hmin, hsecond⟩
    have hLne : L ≠ [] := by
      intro h
      rw [h] at hlen
      simp at hlen
      omega
    have hpre : [v] <+: L := by
      cases L with
      | nil => exact absurd rfl hLne
      | cons a t =>
        have : a = v := by simpa using hv
        subst this
        exact ⟨t, rfl⟩
    refine ⟨hpre, hlen, ?_, ?_, hsecond, ?_, hback⟩
    · intro m hm hm2
      simp only [List.length_singleton] at hm
      refine ⟨?_, ?_, ?_⟩
      · exact hch m (by omega) (by omega)
      · exact hmin m (by omega) (by omega)
      · exact (nodup_iff_getD_take L).mp hnd m (by omega)
    · have hc := hch (k - 1) (by omega) (by omega)
      have hk1 : k - 1 - 1 = k - 2 := by omega
      rwa [hk1] at hc
    · exact (nodup_iff_getD_take L).mp hnd (k - 1) (by omega)

lemma count_nodup {α : Type} [BEq α] [LawfulBEq α] [DecidableEq α]
    (l : List α) (a : α) (h : l.Nodup) :
    l.count a = if a ∈ l then 1 else 0 := by
  induction l with
  | nil => simp
  | cons b l ih =>
    rcases List.nodup_cons.mp h with ⟨hb, hl⟩
    rw [List.count_cons, ih hl]
    by_cases hab : a = b
    · subst hab
      rw [if_neg hb, if_pos (List.mem_cons_self _ _)]
      simp
    · simp [List.mem_cons, hab]
      exact fun h2 => hab h2.symm

lemma canonical_head_bounds (G : Nat → List Nat) (n k : Nat) (L : List Nat)
    (hbound : ∀ a b : Nat, b ∈ G a → 1 ≤ b ∧ b ≤ n)
    (_hk3 : 3 ≤ k) (hcan : IsCanonicalCycle G k L) :
    1 ≤ L.getD 0 0 ∧ L.getD 0 0 + k ≤ n + 1 := by
  obtain ⟨hlen, hnd, hch, hback, hmin, hsecond⟩ := hcan
  have hb0 : 1 ≤ L.getD 0 0 ∧ L.getD 0 0 ≤ n := hbound _ _ hback
  have helem : ∀ m, m < k → L.getD 0 0 ≤ L.getD m 0 ∧ L.getD m 0 ≤ n := by
    intro m hm
    rcases Nat.eq_zero_or_pos m with rfl | hm0
    · exact ⟨le_rfl, hb0.2⟩
    · exact ⟨le_of_lt (hmin m hm hm0), (hbound _ _ (hch m hm hm0)).2⟩
  have hfin : L.toFinset ⊆ Finset.Icc (L.getD 0 0) n := by
    intro x hx
    rw [List.mem_toFinset] at hx
    rcases List.mem_iff_get.mp hx with ⟨⟨m, hm⟩, hget⟩
    have hmk : m < k := by omega
    have hx2 : L.getD m 0 = x := by
      rw [List.getD_eq_getElem L 0 hm, ← hget]
      simp [List.get_eq_getElem]
    rw [Finset.mem_Icc, ← hx2]
    exact helem m hmk
  have hcard : k ≤ (Finset.Icc (L.getD 0 0) n).card := by
    calc k = L.length := hlen.symm
    _ = L.toFinset.card := (List.toFinset_card_of_nodup hnd).symm
    _ ≤ _ := Finset.card_le_card hfin
  rw [Nat.card_Icc] at hcard
  exact ⟨hb0.1, by omega⟩

lemma mem_ofLenCirs_iff (G : Nat → List Nat) (n k : Nat)
    (hbound : ∀ a b : Nat, b ∈ G a → 1 ≤ b ∧ b ≤ n)
    (hk3 : 3 ≤ k) (hkn : k ≤ n) (L : List Nat) :
    L ∈ ofLenCirs G n k ↔ IsCanonicalCycle G k L := by
  rw [ofLenCirs, List.mem_flatMap]
  constructor
  · rintro ⟨v, _, hL⟩
    have h := (mem_cirExts_iff G k hk3 (k - 1) [v] (by simp)
      (by simp; omega) (by omega) L).mp hL
    exact ((extSpec_singleton_iff G k hk3 v L).mp h).2
  · intro hcan
    have hbnd := canonical_head_bounds G n k L hbound hk3 hcan
    refine ⟨L.getD 0 0, ?_, ?_⟩
    · rw [List.mem_range'_1]
      omega
    · exact (mem_cirExts_iff G k hk3 (k - 1) [L.getD 0 0] (by simp)
        (by simp; omega) (by omega) L).mpr
        ((extSpec_singleton_iff G k hk3 _ L).mpr ⟨rfl, hcan⟩)

lemma mem_ofLenCirs_length (G : Nat → List Nat) (n k : Nat) (hk3 : 3 ≤ k)
    (L : List Nat) (h : L ∈ ofLenCirs G n k) : L.length = k := by
  rw [ofLenCirs, List.mem_flatMap] at h
  rcases h with ⟨v, _, hL⟩
  exact ((mem_cirExts_iff G k hk3 (k - 1) [v] (by simp)
    (by simp; omega) (by omega) L).mp hL).2.1

lemma nodup_ofLenCirs (G : Nat → List Nat) (n k : Nat)
    (hG : ∀ a, (G a).Nodup) : (ofLenCirs G n k).Nodup := by
  rw [ofLenCirs, List.nodup_flatMap]
  refine ⟨fun v _ => nodup_cirExts G k hG _ _, ?_⟩
  refine List.Pairwise.imp ?_ (List.nodup_range' _ _)
  intro a b hab L hLa hLb
  have ha := mem_cirExts_prefix G k (k - 1) [a] L hLa
  have hb := mem_cirExts_prefix G k (k - 1) [b] L hLb
  have ha0 : L.getD 0 0 = a := by
    rw [prefix_getD ha (by simp)]; rfl
  have hb0 : L.getD 0 0 = b := by
    rw [prefix_getD hb (by simp)]; rfl
  exact hab (ha0 ▸ hb0)

lemma nodup_allCirs (G : Nat → List Nat) (n : Nat)
    (hG : ∀ a, (G a).Nodup) : (allCirs G n).Nodup := by
  rw [allCirs, List.nodup_flatMap]
  refine ⟨fun k _ => nodup_ofLenCirs G n k hG, ?_⟩
  refine List.Pairwise.imp_of_mem ?_
    (List.Pairwise.imp (fun h => h) (List.nodup_range' _ _))
  intro a b ha hb hab L hLa hLb
  rw [List.mem_range'_1] at ha hb
  have hla := mem_ofLenCirs_length G n a (by omega) L hLa
  have hlb := mem_ofLenCirs_length G n b (by omega) L hLb
  exact hab (hla ▸ hlb)

/-- **C1.**  For every graph on vertices `1..n` (neighbour lists
duplicate-free, all neighbours in `[1, n]`) and every `k ∈ [3, n]`, the
cycle enumeration driven by `find_all_cirs` appends every simple cycle of
length `k` exactly once, in canonical form: a list of length `k` occurs in
the produced catalogue exactly once if it is a canonical simple `k`-cycle
(smallest vertex first, second element smaller than the last), and never
otherwise. -/
theorem find_all_cirs_enumerates_each_canonical_cycle_once
    (G : Nat → List Nat) (n : Nat)
    (hbound : ∀ a b : Nat, b ∈ G a → 1 ≤ b ∧ b ≤ n)
    (hG : ∀ a : Nat, (G a).Nodup)
    (k : Nat) (hk3 : 3 ≤ k) (hkn : k ≤ n)
    (L : List Nat) (hL : L.length = k) (cl : List (List Nat)) :
    ((find_all_cirs G n cl).2).count L
      = if IsCanonicalCycle G k L then 1 else 0 := by
  rw [find_all_cirs_spec]
  have hmemiff : L ∈ allCirs G n ↔ IsCanonicalCycle G k L := by
    constructor
    · intro hmem
      rw [allCirs, List.mem_flatMap] at hmem
      rcases hmem with ⟨k', hk', hLk⟩
      rw [List.mem_range'_1] at hk'
      have hlen' := mem_ofLenCirs_length G n k' (by omega) L hLk
      have hkk : k' = k := by omega
      subst hkk
      exact (mem_ofLenCirs_iff G n k' hbound (by omega) (by omega) L).mp hLk
    · intro hcan
      rw [allCirs, List.mem_flatMap]
      refine ⟨k, ?_, (mem_ofLenCirs_iff G n k hbound hk3 hkn L).mpr hcan⟩
      rw [List.mem_range'_1]
      omega
  rw [count_nodup _ _ (nodup_allCirs G n hG), if_congr hmemiff rfl rfl]

lemma Gfile_bound : ∀ a b : Nat, b ∈ Gfile a → 1 ≤ b ∧ b ≤ 4 := by
  intro a b h
  match a with
  | 0 => simp [Gfile] at h
  | 1 => rcases (by simpa [Gfile] using h : b = 2 ∨ b = 3) with rfl | rfl <;> omega
  | 2 => rcases (by simpa [Gfile] using h : b = 1 ∨ b = 3) with rfl | rfl <;> omega
  | 3 =>
    rcases (by simpa [Gfile] using h : b = 1 ∨ b = 2 ∨ b = 4) with rfl | rfl | rfl <;> omega
  | 4 => rcases (by simpa [Gfile] using h : b = 3) with rfl; omega
  | (m + 5) => simp [Gfile] at h

lemma Gfile_nodup : ∀ a : Nat, (Gfile a).Nodup := by
  intro a
  match a with
  | 0 => simp [Gfile]
  | 1 => decide
  | 2 => decide
  | 3 => decide
  | 4 => decide
  | (m + 5) => simp [Gfile]

/-- Witness for C1: on the graph from `find_circle.py` itself, with `n = 4`
and `k = 3`, the canonical cycle `[1, 2, 3]` is enumerated exactly once. -/
theorem find_all_cirs_enumerates_each_canonical_cycle_once_witness :
    ((find_all_cirs Gfile 4 []).2).count [1, 2, 3] = 1 := by
  have h := find_all_cirs_enumerates_each_canonical_cycle_once Gfile 4
    Gfile_bound Gfile_nodup 3 (by decide) (by decide) [1, 2, 3] (by decide) []
  rwa [if_pos (by decide)] at h

/-- **C10.**  `find_all_cirs` first clears its `cir_list` argument, so its
result does not depend on the list's prior contents, and the returned count
equals the length of the produced list. -/
theorem find_all_cirs_independent_of_accumulator_and_counts
    (G : Nat → List Nat) (n : Nat) (cl cl' : List (List Nat)) :
    find_all_cirs G n cl = find_all_cirs G n cl' ∧
    (find_all_cirs G n cl).1 = (find_all_cirs G n cl).2.length := by
  refine ⟨rfl, ?_⟩
  rw [find_all_cirs_spec]

/-! ## `shortest_forwarding.py`: data model

Datapath objects are identified with their dpid (`Nat`); `send_msg` calls
are modelled by appending a `Msg` record to an emission trace.  A Python
exception escaping `install_flow` (`TypeError` on subscripting `None`,
`KeyError` on a missing datapath, `ValueError` from `list.index`,
an uncaught `IndexError`, or a serialisation failure on a `None` port)
aborts the remaining work; the `crashed` flag records this, keeping the
messages already sent. -/

def OFP_NO_BUFFER : Nat := 4294967295
def OFPP_IN_PORT : Nat := 4294967288
def OFPP_CONTROLLER : Nat := 4294967293
def OFPP_LOCAL : Nat := 4294967294

/-- The OpenFlow match triple `(eth_type, ipv4_src, ipv4_dst)`. -/
abbrev MatchInfo := Nat × Nat × Nat

/-- Control messages emitted by the application.

* `flowMod dpid info src_port dst_port group_id`: as built by
  `send_flow_mod` (priority 1, no timeouts); `src_port = 0` means the match
  carries no `in_port` field, and `group_id ≠ 0` means the single action is
  `OFPActionGroup(group_id)` instead of `OFPActionOutput(dst_port)`.
* `groupMod dpid gid watch1 out1 watch2 out2`: a Fast-Failover group with
  two buckets `(watch_port = watchᵢ, actions = [Output(outᵢ)])`.
* `packetOut dpid buffer_id in_port actions withData`: as built by
  `_build_packet_out`; `withData` records whether raw bytes are attached. -/
inductive Msg where
  | flowMod (dpid : Nat) (info : MatchInfo) (src_port dst_port group_id : Nat)
  | groupMod (dpid group_id watch1 out1 watch2 out2 : Nat)
  | packetOut (dpid buffer_id in_port : Nat) (actions : List Nat)
      (withData : Bool)
deriving DecidableEq, Repr

def Msg.isPacketOut : Msg → Bool
  | .packetOut _ _ _ _ _ => true
  | _ => false

def Msg.isFlowMod : Msg → Bool
  | .flowMod _ _ _ _ _ => true
  | _ => false

def Msg.isGroupMod : Msg → Bool
  | .groupMod _ _ _ _ _ _ => true
  | _ => false

/-- The group id carried by a `groupMod`, if any. -/
def Msg.gidOf : Msg → Option Nat
  | .groupMod _ g _ _ _ _ => some g
  | _ => none

/-- `send_flow_mod(datapath, flow_info, src_port, dst_port, group_id)`. -/
def send_flow_mod (dpid : Nat) (info : MatchInfo)
    (src_port dst_port group_id : Nat) : Msg :=
  Msg.flowMod dpid info src_port dst_port group_id

/-- `send_group_mod(datapath, group_id_1, out_port_1, out_port_2,
watch_port_2)`: bucket 1 watches its own output port; bucket 2 watches
`watch_port_2` unless that is `0`, in which case it watches `out_port_2`. -/
def send_group_mod (dpid group_id_1 out_port_1 out_port_2 watch_port_2 : Nat) :
    Msg :=
  Msg.groupMod dpid group_id_1 out_port_1 out_port_1
    (if watch_port_2 = 0 then out_port_2 else watch_port_2) out_port_2

/-- `_build_packet_out(datapath, buffer_id, src_port, dst_port, data)`:
`None` when nothing is to be sent (no buffer and no data); otherwise a
PacketOut whose action list is `[Output(dst_port)]` when `dst_port` is
truthy, with raw data attached exactly when `buffer_id == OFP_NO_BUFFER`. -/
def build_packet_out (dpid buffer_id src_port : Nat) (dst_port : Option Nat)
    (data : Option Nat) : Option Msg :=
  let actions : List Nat :=
    match dst_port with
    | some p => if p = 0 then [] else [p]
    | none => []
  if buffer_id = OFP_NO_BUFFER ∧ data = none then none
  else some (Msg.packetOut dpid buffer_id src_port actions
    (decide (buffer_id = OFP_NO_BUFFER)))

/-- The read-only inputs of `install_flow`: the datapath registry (as the
set of registered dpids), `link_to_port`, the cycle catalogue and the
access table `{(sw, port): (ip, mac)}`. -/
structure Net where
  datapaths : List Nat
  link_to_port : List ((Nat × Nat) × (Nat × Nat))
  cir_list : List (List Nat)
  access_table : List ((Nat × Nat) × (Nat × Nat))
deriving DecidableEq, Repr

/-- `get_port_pair_from_link`: `None` (after logging) when the link is
unknown. -/
def get_port_pair_from_link (ltp : List ((Nat × Nat) × (Nat × Nat)))
    (src_dpid dst_dpid : Nat) : Option (Nat × Nat) :=
  (ltp.find? (fun e => e.1 == (src_dpid, dst_dpid))).map (·.2)

/-- `get_port(dst_ip, access_table)`: the access port of the first entry
whose value's ip matches, else `None`. -/
def get_port (dst_ip : Nat)
    (access_table : List ((Nat × Nat) × (Nat × Nat))) : Option Nat :=
  match access_table with
  | [] => none
  | _ :: _ => (access_table.find? (fun e => e.2.1 == dst_ip)).map (fun e => e.1.2)

/-- The mutable state threaded through `install_flow`: the emission trace,
the recorded cycles `path_cir` and directions `cir_dir`, the current value
of the function-scoped Python variables `bp` (possibly still unassigned)
and `cir_01`, and the crash flag. -/
structure IFSt where
  msgs : List Msg
  path_cir : List (List Nat)
  cir_dir : List Int
  bp : Option Nat
  cir_01 : List Nat
  crashed : Bool
deriving DecidableEq, Repr

def IFSt.init : IFSt := ⟨[], [], [], none, [], false⟩

def emit (m : Msg) (s : IFSt) : IFSt := { s with msgs := s.msgs ++ [m] }

def crashSt (s : IFSt) : IFSt := { s with crashed := true }

/-- The recurring source pattern
```
try:
    if cmpT == c[p+1]: bp = c[p-1]
    else:              bp = c[p+1]
except IndexError:
    if cmpE == c[0]:   bp = c[p-1]
    else:              bp = c[0]
```
(an `IndexError` inside the `try` falls to the `except` clause; one inside
the `except` clause is uncaught, here `none`).  Negative Python indices
(`p = 0` gives `c[-1]`, the last element) do not raise. -/
def tryBp (c : List Nat) (p : Nat) (cmpT cmpE : Nat) : Option Nat :=
  let t : Option Nat :=
    match pyGet c ((p : Int) + 1) with
    | some x => if cmpT = x then pyGet c ((p : Int) - 1) else some x
    | none => none
  match t with
  | some b => some b
  | none =>
    match pyGet c 0 with
    | some z => if cmpE = z then pyGet c ((p : Int) - 1) else some z
    | none => none

/-- Variant of `tryBp` that also records the cycle direction appended to
`cir_dir` (`-1` with `c[p-1]`, `+1` with `c[p+1]`), as in the `first_dp`
and `01` branches. -/
def tryBpDir (c : List Nat) (p : Nat) (cmp : Nat) : Option (Nat × Int) :=
  let t : Option (Nat × Int) :=
    match pyGet c ((p : Int) + 1) with
    | some x =>
      if cmp = x then (pyGet c ((p : Int) - 1)).map (fun b => (b, -1))
      else some (x, 1)
    | none => none
  match t with
  | some r => some r
  | none =>
    match pyGet c 0 with
    | some z =>
      if cmp = z then (pyGet c ((p : Int) - 1)).map (fun b => (b, -1))
      else some (z, 1)
    | none => none

/-- The direction-only try/except pattern of the interior `10` case. -/
def dirOf (c : List Nat) (p : Nat) (cmp : Nat) : Option Int :=
  match pyGet c ((p : Int) + 1) with
  | some x => some (if cmp = x then -1 else 1)
  | none =>
    match pyGet c 0 with
    | some z => some (if cmp = z then -1 else 1)
    | none => none

/-- Shared parameters of the `install_flow` walk. -/
structure IFEnv where
  net : Net
  gid : Nat
  fi : MatchInfo
  bi : MatchInfo
  in_port : Nat
  path : List Nat
deriving Repr

/-- A Python `for`-loop body with `break`: fold that stops on break or
crash. -/
def loopB {α : Type} (xs : List α) (body : IFSt → α → IFSt × Bool)
    (s0 : IFSt) : IFSt × Bool :=
  xs.foldl
    (fun acc x => if acc.2 ∨ acc.1.crashed then acc else body acc.1 x)
    (s0, false)

/-! ## `install_flow` (lines 319-752), block by block

`path[x]` for the on-path indices used by the source is written
`path.getD x 0`; `path[-1]`/`path[-2]` are `path.getD (path.length - 1) 0`
and `path.getD (path.length - 2) 0` (the guard `len(path) >= 2` holds at
every such use). -/

/-- The `first_dp` cycle scan (source lines 358-390): find the first cycle
containing `path[0]` and `path[1]`, record its direction, install the
forward Fast-Failover group and its flow entries, and record the cycle in
`path_cir`. -/
def firstDpLoop (e : IFEnv) (out_port : Nat) (s0 : IFSt) : IFSt × Bool :=
  let p0 := e.path.getD 0 0
  let p1 := e.path.getD 1 0
  loopB e.net.cir_list
    (fun s cj =>
      if p0 ∈ cj ∧ p1 ∈ cj then
        match pyIndexOpt cj p0 with
        | none => (crashSt s, false)
        | some p =>
          match tryBpDir cj p p1 with
          | none => (crashSt s, false)
          | some (bpv, d) =>
            match get_port_pair_from_link e.net.link_to_port p0 bpv with
            | none =>
              (crashSt { s with cir_dir := s.cir_dir ++ [d], bp := some bpv },
               false)
            | some pp2 =>
              let s := { s with cir_dir := s.cir_dir ++ [d], bp := some bpv,
                                path_cir := s.path_cir ++ [cj] }
              let s := emit (send_group_mod p0 e.gid out_port pp2.1 0) s
              let s := emit (send_flow_mod p0 e.fi e.in_port out_port e.gid) s
              let s := emit (send_flow_mod p0 e.fi out_port pp2.1 0) s
              (s, true)
      else (s, false))
    s0

/-- The inner `for k in range(len(path_cir))` scan of the `last_dp` block
(source lines 409-426): reuse an already-recorded cycle covering the last
hop — keeping the *stale* index `p` computed in `cir_list[j]` — or append
`cir_list[j]` with its direction on the final iteration.  Returns the
resulting state and the final value of the Python variable `bp_cir`. -/
def lastInnerLoop (pm1 pl : Nat) (cj : List Nat) (p : Nat) (s0 : IFSt) :
    IFSt × List Nat :=
  let r := (List.range s0.path_cir.length).foldl
    (fun (acc : IFSt × List Nat × Bool) k =>
      if acc.2.2 ∨ acc.1.crashed then acc
      else
        let s := acc.1
        let bc := acc.2.1
        match s.path_cir.get? k with
        | none => (crashSt s, bc, false)
        | some ck =>
          if pm1 ∈ ck ∧ pl ∈ ck then (s, ck, true)
          else if k = s.path_cir.length - 1 then
            match pyGet cj ((p : Int) - 1) with
            | none => (crashSt s, bc, false)
            | some w =>
              let d : Int := if pm1 = w then -1 else 1
              ({ s with path_cir := s.path_cir ++ [cj],
                        cir_dir := s.cir_dir ++ [d] }, cj, false)
          else (s, bc, false))
    (s0, cj, false)
  (r.1, r.2.1)

/-- The `last_dp` cycle scan (source lines 404-446). -/
def lastDpLoop (e : IFEnv) (src_port dst_port : Nat) (s0 : IFSt) :
    IFSt × Bool :=
  let pm1 := e.path.getD (e.path.length - 2) 0
  let pl := e.path.getD (e.path.length - 1) 0
  loopB e.net.cir_list
    (fun s cj =>
      if pm1 ∈ cj ∧ pl ∈ cj then
        match pyIndexOpt cj pl with
        | none => (crashSt s, false)
        | some p =>
          let inner := lastInnerLoop pm1 pl cj p s
          let s := inner.1
          let bp_cir := inner.2
          if s.crashed then (s, false)
          else
            match tryBp bp_cir p pm1 pm1 with
            | none => (crashSt s, false)
            | some bpv =>
              let s := { s with bp := some bpv }
              match get_port_pair_from_link e.net.link_to_port pl bpv with
              | none => (crashSt s, false)
              | some pp2 =>
                let s := emit (send_group_mod pl e.gid src_port pp2.1 0) s
                let s := emit (send_flow_mod pl e.bi dst_port src_port e.gid) s
                let s := emit (send_flow_mod pl e.bi src_port pp2.1 0) s
                (s, true)
      else (s, false))
    s0

/-- The `last_dp` block (source lines 396-450). -/
def lastBlock (e : IFEnv) (s0 : IFSt) : IFSt :=
  if s0.crashed then s0
  else
    let pm1 := e.path.getD (e.path.length - 2) 0
    let pl := e.path.getD (e.path.length - 1) 0
    if pl ∉ e.net.datapaths then crashSt s0
    else
      match get_port_pair_from_link e.net.link_to_port pm1 pl with
      | none => crashSt s0
      | some pp =>
        let src_port := pp.2
        match get_port e.fi.2.2 e.net.access_table with
        | none => crashSt s0
        | some dst_port =>
          let s := emit (send_flow_mod pl e.fi 0 dst_port 0) s0
          let r := lastDpLoop e src_port dst_port s
          let s := r.1
          if ¬s.crashed ∧ ¬r.2 then
            emit (send_flow_mod pl e.bi dst_port src_port 0) s
          else s

/-- The `for n in range(i)` rewiring walk of the interior `1011` sub-case
(source lines 532-560). -/
def inter1011NLoop (e : IFEnv) (i : Nat) (bpc : List Nat) (s0 : IFSt) :
    IFSt :=
  ((List.range i).foldl
    (fun (acc : IFSt × Bool) n =>
      let s := acc.1
      let h := acc.2
      if s.crashed then acc
      else
        let pn := e.path.getD n 0
        if pn ∉ e.net.datapaths then (crashSt s, h)
        else if h then
          match get_port_pair_from_link e.net.link_to_port pn
              (e.path.getD (n - 1) 0) with
          | none => (crashSt s, h)
          | some q1 =>
            match get_port_pair_from_link e.net.link_to_port pn
                (e.path.getD (n + 1) 0) with
            | none => (crashSt s, h)
            | some q2 => (emit (send_flow_mod pn e.fi q2.1 q1.1 0) s, h)
        else if pn ∈ bpc then
          match pyIndexOpt bpc pn with
          | none => (crashSt s, h)
          | some p2 =>
            match tryBp bpc p2 (e.path.getD (n + 1) 0)
                (e.path.getD (n + 1) 0) with
            | none => (crashSt s, h)
            | some bpv2 =>
              match get_port_pair_from_link e.net.link_to_port pn bpv2 with
              | none => (crashSt s, h)
              | some q1 =>
                match get_port_pair_from_link e.net.link_to_port pn
                    (e.path.getD (n + 1) 0) with
                | none => (crashSt s, h)
                | some q2 =>
                  (emit (send_flow_mod pn e.fi q2.1 q1.1 0) s, true)
        else (s, h))
    (s0, false)).1

/-- The interior `1011` sub-case (source lines 502-561): six entries at
`path[i]`, a rewiring entry at `path[i-1]` (whose backup hop is computed
with the try/except comparing `path[i]` but falling back on a comparison
with `path[i+1]`), then the `for n in range(i)` walk. -/
def interM1011 (e : IFEnv) (i : Nat)
    (src_port dst_port bp_port pp0 : Nat) (cm : List Nat) (s0 : IFSt) :
    IFSt :=
  let pi := e.path.getD i 0
  let pim1 := e.path.getD (i - 1) 0
  let pip1 := e.path.getD (i + 1) 0
  let s := emit (send_group_mod pi e.gid dst_port OFPP_IN_PORT src_port) s0
  let s := emit (send_flow_mod pi e.fi bp_port dst_port 0) s
  let s := emit (send_flow_mod pi e.fi src_port dst_port e.gid) s
  let s := emit (send_flow_mod pi e.fi dst_port src_port 0) s
  let s := emit (send_group_mod pi (e.gid + 1) src_port bp_port 0) s
  let s := emit (send_flow_mod pi e.bi dst_port src_port (e.gid + 1)) s
  if pim1 ∉ e.net.datapaths then crashSt s
  else
    match pyIndexOpt cm pim1 with
    | none => crashSt s
    | some p2 =>
      match tryBp cm p2 pi pip1 with
      | none => crashSt s
      | some bpv2 =>
        match get_port_pair_from_link e.net.link_to_port pim1 bpv2 with
        | none => crashSt s
        | some q =>
          let s := emit (send_flow_mod pim1 e.fi pp0 q.1 0) s
          inter1011NLoop e i cm s

/-- The interior `1010` sub-case (source lines 562-594). -/
def interM1010 (e : IFEnv) (i : Nat) (src_port dst_port bp_port : Nat)
    (cm : List Nat) (s0 : IFSt) : IFSt :=
  let pi := e.path.getD i 0
  let pip1 := e.path.getD (i + 1) 0
  match pyIndexOpt cm pi with
  | none => crashSt s0
  | some p3 =>
    match tryBp cm p3 pip1 pip1 with
    | none => crashSt s0
    | some bpv3 =>
      match get_port_pair_from_link e.net.link_to_port pi bpv3 with
      | none => crashSt s0
      | some q =>
        let bp_port_ := q.1
        let s := emit (send_group_mod pi e.gid dst_port bp_port_ 0) s0
        let s := emit (send_flow_mod pi e.fi src_port dst_port e.gid) s
        let s := emit (send_flow_mod pi e.fi bp_port dst_port e.gid) s
        let s := emit (send_flow_mod pi e.bi src_port bp_port 0) s
        let s := emit (send_flow_mod pi e.fi dst_port bp_port_ 0) s
        let s := emit (send_group_mod pi (e.gid + 1) src_port bp_port 0) s
        let s := emit (send_flow_mod pi e.bi dst_port src_port (e.gid + 1)) s
        emit (send_flow_mod pi e.bi bp_port_ src_port (e.gid + 1)) s

/-- The inner `for m in range(len_cir)` scan of the interior `10` case
(source lines 482-607), covering the `1011`, `1010` and `100` sub-cases.
Returns the state and the flag `f`. -/
def interMLoop (e : IFEnv) (i : Nat) (src_port dst_port bp_port pp0 : Nat)
    (s0 : IFSt) : IFSt × Bool :=
  let pi := e.path.getD i 0
  let pim1 := e.path.getD (i - 1) 0
  let pip1 := e.path.getD (i + 1) 0
  let len_cir := e.net.cir_list.length
  let r := (List.range len_cir).foldl
    (fun (acc : IFSt × Bool × Bool) m =>
      if acc.2.2 ∨ acc.1.crashed then acc
      else
        let s := acc.1
        let f := acc.2.1
        let cm := e.net.cir_list.getD m []
        if pi ∈ cm ∧ pip1 ∈ cm then
          match pyIndexOpt cm pi with
          | none => (crashSt s, f, false)
          | some p_ =>
            let s :=
              if cm ∈ s.path_cir then s
              else
                match dirOf cm p_ pip1 with
                | none => crashSt s
                | some d =>
                  { s with path_cir := s.path_cir ++ [cm],
                           cir_dir := s.cir_dir ++ [d] }
            if s.crashed then (s, f, false)
            else if pim1 ∈ cm then
              (interM1011 e i src_port dst_port bp_port pp0 cm s, true, true)
            else
              (interM1010 e i src_port dst_port bp_port cm s, true, true)
        else if m = len_cir - 1 then
          let s := emit (send_flow_mod pi e.fi src_port dst_port 0) s
          let s := emit (send_flow_mod pi e.fi bp_port dst_port 0) s
          let s := emit (send_group_mod pi e.gid src_port bp_port 0) s
          let s := emit (send_flow_mod pi e.bi dst_port src_port e.gid) s
          let s := emit (send_flow_mod pi e.bi src_port bp_port 0) s
          (s, true, false)
        else (s, f, false))
    (s0, false, false)
  (r.1, r.2.1)

/-- The emission half of the interior `01` block (shared by source lines
645-680 and 688-721): read the (possibly stale, possibly unassigned)
Python variable `bp`, look up the backup port and install the group and
the four flow entries. -/
def zero1Emit (e : IFEnv) (i : Nat) (src_port dst_port : Nat) (s : IFSt) :
    IFSt :=
  let pi := e.path.getD i 0
  if s.crashed then s
  else
    match s.bp with
    | none => crashSt s
    | some bpv =>
      match get_port_pair_from_link e.net.link_to_port pi bpv with
      | none => crashSt s
      | some q =>
        let bp_port := q.1
        let s := emit (send_group_mod pi e.gid dst_port bp_port 0) s
        let s := emit (send_flow_mod pi e.fi src_port dst_port e.gid) s
        let s := emit (send_flow_mod pi e.fi dst_port bp_port 0) s
        let s := emit (send_flow_mod pi e.bi bp_port src_port 0) s
        emit (send_flow_mod pi e.bi dst_port src_port 0) s

/-- The interior `01` block: record the cycle if new (taking the backup
hop and direction from `tryBpDir` against `path[i+1]`), then emit via
`zero1Emit`.  When the cycle was already recorded, `bp` keeps its previous
value. -/
def zero1Action (e : IFEnv) (i : Nat) (src_port dst_port : Nat)
    (bp_cir : List Nat) (p : Nat) (s0 : IFSt) : IFSt :=
  zero1Emit e i src_port dst_port
    (if bp_cir ∈ s0.path_cir then s0
     else
       match tryBpDir bp_cir p (e.path.getD (i + 1) 0) with
       | none => crashSt s0
       | some (bpv, d) =>
         { s0 with path_cir := s0.path_cir ++ [bp_cir],
                   cir_dir := s0.cir_dir ++ [d], bp := some bpv })

/-- The interior `for j in range(len_cir)` classification scan (source
lines 464-721) for one on-path switch `path[i]`. -/
def interJLoop (e : IFEnv) (i : Nat) (src_port dst_port pp0 : Nat)
    (s0 : IFSt) : IFSt :=
  let pi := e.path.getD i 0
  let pim1 := e.path.getD (i - 1) 0
  let pip1 := e.path.getD (i + 1) 0
  let len_cir := e.net.cir_list.length
  (loopB (List.range len_cir)
    (fun s j =>
      let cj := e.net.cir_list.getD j []
      if pim1 ∈ cj ∧ pi ∈ cj ∧ pip1 ∉ cj then
        match pyIndexOpt cj pi with
        | none => (crashSt s, false)
        | some p =>
          match tryBp cj p pim1 pim1 with
          | none => (crashSt s, false)
          | some bpv =>
            let s := { s with bp := some bpv }
            match get_port_pair_from_link e.net.link_to_port pi bpv with
            | none => (crashSt s, false)
            | some q =>
              interMLoop e i src_port dst_port q.1 pp0 s
      else if pim1 ∈ cj ∧ pi ∈ cj ∧ pip1 ∈ cj then
        let s := emit (send_group_mod pi e.gid dst_port OFPP_IN_PORT
          src_port) s
        let s := emit (send_flow_mod pi e.fi src_port dst_port e.gid) s
        let s := emit (send_flow_mod pi e.fi dst_port src_port 0) s
        let s := emit (send_group_mod pi (e.gid + 1) src_port OFPP_IN_PORT
          dst_port) s
        let s := emit (send_flow_mod pi e.bi dst_port src_port (e.gid + 1)) s
        let s := emit (send_flow_mod pi e.bi src_port dst_port 0) s
        (s, true)
      else if pim1 ∉ cj ∧ pi ∈ cj ∧ pip1 ∈ cj then
        let s := { s with cir_01 := cj }
        if j = len_cir - 1 then
          match pyIndexOpt cj pi with
          | none => (crashSt s, false)
          | some p => (zero1Action e i src_port dst_port cj p s, true)
        else (s, false)
      else if j = len_cir - 1 then
        if s.cir_01.length = 0 then
          let s := emit (send_flow_mod pi e.fi src_port dst_port 0) s
          let s := emit (send_flow_mod pi e.bi dst_port src_port 0) s
          (s, false)
        else
          match pyIndexOpt s.cir_01 pi with
          | none => (crashSt s, false)
          | some p => (zero1Action e i src_port dst_port s.cir_01 p s, false)
      else (s, false))
    s0).1

/-- The interior walk `for i in range(1, len_pa-1)` (source lines 452-721). -/
def interBlock (e : IFEnv) (s0 : IFSt) : IFSt :=
  if e.path.length ≤ 2 then s0
  else
    (List.range' 1 (e.path.length - 2)).foldl
      (fun s i =>
        if s.crashed then s
        else
          let pi := e.path.getD i 0
          if pi ∉ e.net.datapaths then crashSt s
          else
            match get_port_pair_from_link e.net.link_to_port
                (e.path.getD (i - 1) 0) pi with
            | none => crashSt s
            | some pp =>
              match get_port_pair_from_link e.net.link_to_port pi
                  (e.path.getD (i + 1) 0) with
              | none => crashSt s
              | some pn => interJLoop e i pp.2 pn.1 pp.1 s)
      s0

/-- The off-path return-stitch walk (`bp_dp`, source lines 724-752): for
every recorded cycle and every vertex of it that is not on the primary
path, glue a forward and a backward entry between the ports facing its
predecessor and successor under the recorded direction.  An `IndexError`
(from `cir_dir[j]` or from the `p ± d` subscript reaching `len`) falls back
to the cycle's head. -/
def bpStitchVertex (e : IFEnv) (j : Nat) (C : List Nat) (s : IFSt)
    (w : Nat) : IFSt :=
  if s.crashed then s
  else if w ∈ e.path then s
  else
    match pyIndexOpt C w with
    | none => crashSt s
    | some p =>
      let port : Option (Nat × Nat) :=
        match s.cir_dir.get? j with
        | none =>
          get_port_pair_from_link e.net.link_to_port (C.getD 0 0)
            (C.getD p 0)
        | some d =>
          match pyGet C ((p : Int) - d) with
          | none =>
            get_port_pair_from_link e.net.link_to_port (C.getD 0 0)
              (C.getD p 0)
          | some prev =>
            get_port_pair_from_link e.net.link_to_port prev
              (C.getD p 0)
      let port_next : Option (Nat × Nat) :=
        match s.cir_dir.get? j with
        | none =>
          get_port_pair_from_link e.net.link_to_port (C.getD p 0)
            (C.getD 0 0)
        | some d =>
          match pyGet C ((p : Int) + d) with
          | none =>
            get_port_pair_from_link e.net.link_to_port (C.getD p 0)
              (C.getD 0 0)
          | some nxt =>
            get_port_pair_from_link e.net.link_to_port (C.getD p 0)
              nxt
      match port, port_next with
      | some q1, some q2 =>
        if C.getD p 0 ∉ e.net.datapaths then crashSt s
        else
          let s := emit (send_flow_mod (C.getD p 0) e.fi q1.2 q2.1
            0) s
          emit (send_flow_mod (C.getD p 0) e.bi q2.1 q1.2 0) s
      | _, _ => s

def bpStitch (e : IFEnv) (s0 : IFSt) : IFSt :=
  (List.range s0.path_cir.length).foldl
    (fun s j =>
      if s.crashed then s
      else
        let C := s.path_cir.getD j []
        C.foldl (bpStitchVertex e j C) s)
    s0

/-- The on-path part of `install_flow` (everything before the `bp_dp`
stitching): early returns, the `first_dp` block, the `last_dp` block and
the interior walk. -/
def onPathWalk (net : Net) (gid : Nat) (paths : List (List Nat))
    (flow_info : Nat × Nat × Nat × Nat) : IFSt :=
  match paths.head? with
  | none => crashSt IFSt.init
  | some path =>
    if path.length = 0 then IFSt.init
    else
      let fi : MatchInfo := (flow_info.1, flow_info.2.1, flow_info.2.2.1)
      let bi : MatchInfo := (flow_info.1, flow_info.2.2.1, flow_info.2.1)
      let in_port := flow_info.2.2.2
      if path.getD 0 0 ∉ net.datapaths then crashSt IFSt.init
      else if path.length < 2 then IFSt.init
      else
        let e : IFEnv := ⟨net, gid, fi, bi, in_port, path⟩
        match get_port_pair_from_link net.link_to_port (path.getD 0 0)
            (path.getD 1 0) with
        | none => crashSt IFSt.init
        | some pp =>
          let out_port := pp.1
          let s := emit (send_flow_mod (path.getD 0 0) bi 0 in_port 0)
            IFSt.init
          let r := firstDpLoop e out_port s
          let s := r.1
          let s :=
            if ¬s.crashed ∧ ¬r.2 then
              emit (send_flow_mod (path.getD 0 0) fi in_port out_port 0) s
            else s
          let s := lastBlock e s
          interBlock e s

/-- The environment record of an `install_flow` call (used to run the
stitching stage on the walk's result). -/
def mkIFEnv (net : Net) (gid : Nat) (path : List Nat)
    (flow_info : Nat × Nat × Nat × Nat) : IFEnv :=
  ⟨net, gid, (flow_info.1, flow_info.2.1, flow_info.2.2.1),
   (flow_info.1, flow_info.2.2.1, flow_info.2.1), flow_info.2.2.2, path⟩

/-- Shallow embedding of `install_flow` (source lines 319-752).  The
`buffer_id` and `data` parameters are accepted and never used, exactly as
in the source; no PacketOut is built anywhere in the function. -/
def install_flow (net : Net) (gid : Nat) (paths : List (List Nat))
    (flow_info : Nat × Nat × Nat × Nat) (_buffer_id : Nat)
    (_data : Option Nat) : IFSt :=
  let s := onPathWalk net gid paths flow_info
  if s.crashed then s
  else bpStitch (mkIFEnv net gid (paths.headD []) flow_info) s

/-! ## Invariants of the `install_flow` walk -/

lemma foldl_pres_mem {σ α : Type} (P : σ → Prop) (f : σ → α → σ) :
    ∀ (l : List α), (∀ s x, x ∈ l → P s → P (f s x)) →
      ∀ (s : σ), P s → P (l.foldl f s)
  | [], _, _, hs => hs
  | x :: l, h, s, hs =>
    foldl_pres_mem P f l (fun s y hy => h s y (List.mem_cons_of_mem x hy))
      (f s x) (h s x (List.mem_cons_self x l) hs)

/-- A message admissible during one `install_flow` call: never a PacketOut,
and any group id it carries is `gid` or `gid + 1`. -/
def MsgOk (gid : Nat) (m : Msg) : Prop :=
  m.isPacketOut = false ∧ ∀ g, m.gidOf = some g → g = gid ∨ g = gid + 1

/-- The state invariant of the walk: all messages admissible; when no crash
has occurred, the recorded cycles and directions line up; directions are
`±1`; recorded cycles and the sweeping `cir_01` come from the catalogue. -/
def StOk (e : IFEnv) (s : IFSt) : Prop :=
  (∀ m ∈ s.msgs, MsgOk e.gid m) ∧
  (s.crashed = false → s.path_cir.length = s.cir_dir.length) ∧
  (∀ d ∈ s.cir_dir, d = -1 ∨ d = 1) ∧
  (∀ C ∈ s.path_cir, C ∈ e.net.cir_list) ∧
  (s.cir_01 = [] ∨ s.cir_01 ∈ e.net.cir_list)

lemma stOk_init (e : IFEnv) : StOk e IFSt.init := by
  refine ⟨?_, ?_, ?_, ?_, ?_⟩ <;> simp [IFSt.init]

lemma msgOk_flow (gid dpid : Nat) (info : MatchInfo) (sp dp g : Nat) :
    MsgOk gid (send_flow_mod dpid info sp dp g) := by
  refine ⟨rfl, ?_⟩
  intro g' h
  simp [send_flow_mod, Msg.gidOf] at h

lemma msgOk_group (gid dpid g o1 o2 w2 : Nat)
    (hg : g = gid ∨ g = gid + 1) :
    MsgOk gid (send_group_mod dpid g o1 o2 w2) := by
  refine ⟨rfl, ?_⟩
  intro g' h
  simp only [send_group_mod, Msg.gidOf, Option.some.injEq] at h
  omega

lemma tryBpDir_dir (c : List Nat) (p : Nat) (cmp : Nat) (b : Nat) (d : Int)
    (h : tryBpDir c p cmp = some (b, d)) : d = -1 ∨ d = 1 := by
  unfold tryBpDir at h
  rcases h1 : pyGet c ((p : Int) + 1) with _ | x <;>
    rcases h0 : pyGet c 0 with _ | z <;>
    rcases h2 : pyGet c ((p : Int) - 1) with _ | w <;>
    simp only [h1, h0, h2, Option.map_none', Option.map_some'] at h <;>
    (try split at h) <;> (try split at h) <;>
    first
    | (simp_all; done)
    | (rename_i heq
       rw [Option.some_inj] at h
       subst h
       split at heq <;> simp_all)

lemma dirOf_dir (c : List Nat) (p : Nat) (cmp : Nat) (d : Int)
    (h : dirOf c p cmp = some d) : d = -1 ∨ d = 1 := by
  unfold dirOf at h
  rcases h1 : pyGet c ((p : Int) + 1) with _ | x <;>
    rcases h0 : pyGet c 0 with _ | z <;>
    simp only [h1, h0] at h <;>
    (try split at h) <;> simp_all

lemma stOk_crash {e : IFEnv} {s : IFSt} (h : StOk e s) : StOk e (crashSt s) := by
  obtain ⟨h1, h2, h3, h4, h5⟩ := h
  exact ⟨h1, by simp [crashSt], h3, h4, h5⟩

lemma stOk_emit {e : IFEnv} {s : IFSt} {m : Msg} (hm : MsgOk e.gid m)
    (h : StOk e s) : StOk e (emit m s) := by
  obtain ⟨h1, h2, h3, h4, h5⟩ := h
  refine ⟨?_, h2, h3, h4, h5⟩
  intro x hx
  rcases List.mem_append.mp hx with hx | hx
  · exact h1 x hx
  · rw [List.mem_singleton] at hx
    subst hx
    exact hm

lemma stOk_bp {e : IFEnv} {s : IFSt} (b : Option Nat) (h : StOk e s) :
    StOk e { s with bp := b } := by
  obtain ⟨h1, h2, h3, h4, h5⟩ := h
  exact ⟨h1, h2, h3, h4, h5⟩

lemma stOk_set01 {e : IFEnv} {s : IFSt} {C : List Nat}
    (hC : C ∈ e.net.cir_list) (h : StOk e s) :
    StOk e { s with cir_01 := C } := by
  obtain ⟨h1, h2, h3, h4, _⟩ := h
  exact ⟨h1, h2, h3, h4, Or.inr hC⟩

lemma stOk_crashDir {e : IFEnv} {s : IFSt} {d : Int} {b : Option Nat}
    (hd : d = -1 ∨ d = 1) (h : StOk e s) :
    StOk e (crashSt { s with cir_dir := s.cir_dir ++ [d], bp := b }) := by
  obtain ⟨h1, h2, h3, h4, h5⟩ := h
  refine ⟨h1, by simp [crashSt], ?_, h4, h5⟩
  intro x hx
  rcases List.mem_append.mp hx with hx | hx
  · exact h3 x hx
  · rw [List.mem_singleton] at hx
    subst hx
    exact hd

lemma stOk_pairAppend {e : IFEnv} {s : IFSt} {C : List Nat} {d : Int}
    {b : Option Nat} (hC : C ∈ e.net.cir_list) (hd : d = -1 ∨ d = 1)
    (h : StOk e s) :
    StOk e { s with cir_dir := s.cir_dir ++ [d], bp := b,
                    path_cir := s.path_cir ++ [C] } := by
  obtain ⟨h1, h2, h3, h4, h5⟩ := h
  refine ⟨h1, ?_, ?_, ?_, h5⟩
  · intro hc
    simp only [List.length_append, List.length_singleton]
    rw [h2 hc]
  · intro x hx
    rcases List.mem_append.mp hx with hx | hx
    · exact h3 x hx
    · rw [List.mem_singleton] at hx
      subst hx
      exact hd
  · intro x hx
    rcases List.mem_append.mp hx with hx | hx
    · exact h4 x hx
    · rw [List.mem_singleton] at hx
      subst hx
      exact hC

lemma stOk_pairAppend' {e : IFEnv} {s : IFSt} {C : List Nat} {d : Int}
    (hC : C ∈ e.net.cir_list) (hd : d = -1 ∨ d = 1) (h : StOk e s) :
    StOk e { s with path_cir := s.path_cir ++ [C],
                    cir_dir := s.cir_dir ++ [d] } := by
  exact stOk_pairAppend hC hd h

lemma stOk_pairAppendBp {e : IFEnv} {s : IFSt} {C : List Nat} {d : Int}
    {b : Option Nat} (hC : C ∈ e.net.cir_list) (hd : d = -1 ∨ d = 1)
    (h : StOk e s) :
    StOk e { s with path_cir := s.path_cir ++ [C],
                    cir_dir := s.cir_dir ++ [d], bp := b } := by
  exact stOk_pairAppend hC hd h

lemma firstDpLoop_stOk (e : IFEnv) (out_port : Nat) (s0 : IFSt)
    (h : StOk e s0) : StOk e (firstDpLoop e out_port s0).1 := by
  unfold firstDpLoop loopB
  refine foldl_pres_mem (fun acc : IFSt × Bool => StOk e acc.1) _ _ ?_ _ h
  intro acc cj hcj hacc
  dsimp only
  split
  · exact hacc
  split
  · rcases hidx : pyIndexOpt cj (e.path.getD 0 0) with _ | p <;>
      simp only [hidx]
    · exact stOk_crash hacc
    · rcases hbd : tryBpDir cj p (e.path.getD 1 0) with _ | ⟨bpv, d⟩ <;>
        simp only [hbd]
      · exact stOk_crash hacc
      · have hd := tryBpDir_dir _ _ _ _ _ hbd
        rcases hlk : get_port_pair_from_link e.net.link_to_port
            (e.path.getD 0 0) bpv with _ | pp2 <;> simp only [hlk]
        · exact stOk_crashDir hd hacc
        · exact stOk_emit (msgOk_flow _ _ _ _ _ _)
            (stOk_emit (msgOk_flow _ _ _ _ _ _)
              (stOk_emit (msgOk_group _ _ _ _ _ _ (Or.inl rfl))
                (stOk_pairAppend hcj hd hacc)))
  · exact hacc

lemma lastInnerLoop_stOk (e : IFEnv) (pm1 pl : Nat) (cj : List Nat) (p : Nat)
    (s0 : IFSt) (hcj : cj ∈ e.net.cir_list) (h : StOk e s0) :
    StOk e (lastInnerLoop pm1 pl cj p s0).1 := by
  unfold lastInnerLoop
  dsimp only
  refine foldl_pres_mem (fun acc : IFSt × List Nat × Bool => StOk e acc.1)
    _ _ ?_ _ h
  intro acc k _ hacc
  dsimp only
  split
  · exact hacc
  rcases hg : acc.1.path_cir.get? k with _ | ck <;> simp only [hg]
  · exact stOk_crash hacc
  · split
    · exact hacc
    split
    · rcases hw : pyGet cj ((p : Int) - 1) with _ | w <;> simp only [hw]
      · exact stOk_crash hacc
      · refine stOk_pairAppend' hcj ?_ hacc
        split <;> simp
    · exact hacc

lemma lastDpLoop_stOk (e : IFEnv) (src_port dst_port : Nat) (s0 : IFSt)
    (h : StOk e s0) : StOk e (lastDpLoop e src_port dst_port s0).1 := by
  unfold lastDpLoop loopB
  refine foldl_pres_mem (fun acc : IFSt × Bool => StOk e acc.1) _ _ ?_ _ h
  intro acc cj hcj hacc
  dsimp only
  split
  · exact hacc
  split
  · rcases hidx : pyIndexOpt cj (e.path.getD (e.path.length - 1) 0)
        with _ | p <;> simp only [hidx]
    · exact stOk_crash hacc
    · have hin := lastInnerLoop_stOk e (e.path.getD (e.path.length - 2) 0)
        (e.path.getD (e.path.length - 1) 0) cj p acc.1 hcj hacc
      split
      · exact hin
      rcases hbp : tryBp (lastInnerLoop (e.path.getD (e.path.length - 2) 0)
          (e.path.getD (e.path.length - 1) 0) cj p acc.1).2 p
          (e.path.getD (e.path.length - 2) 0)
          (e.path.getD (e.path.length - 2) 0) with _ | bpv <;>
        simp only [hbp]
      · exact stOk_crash hin
      · rcases hlk : get_port_pair_from_link e.net.link_to_port
            (e.path.getD (e.path.length - 1) 0) bpv with _ | pp2 <;>
          simp only [hlk]
        · exact stOk_crash (stOk_bp _ hin)
        · exact stOk_emit (msgOk_flow _ _ _ _ _ _)
            (stOk_emit (msgOk_flow _ _ _ _ _ _)
              (stOk_emit (msgOk_group _ _ _ _ _ _ (Or.inl rfl))
                (stOk_bp _ hin)))
  · exact hacc

lemma lastBlock_stOk (e : IFEnv) (s0 : IFSt) (h : StOk e s0) :
    StOk e (lastBlock e s0) := by
  unfold lastBlock
  dsimp only
  split
  · exact h
  · split
    · exact stOk_crash h
    · rcases hlk : get_port_pair_from_link e.net.link_to_port
          (e.path.getD (e.path.length - 2) 0)
          (e.path.getD (e.path.length - 1) 0) with _ | pp <;>
        simp only [hlk]
      · exact stOk_crash h
      · rcases hgp : get_port e.fi.2.2 e.net.access_table with _ | dp <;>
          simp only [hgp]
        · exact stOk_crash h
        · have h1 : StOk e (emit (send_flow_mod
              (e.path.getD (e.path.length - 1) 0) e.fi 0 dp 0) s0) :=
            stOk_emit (msgOk_flow _ _ _ _ _ _) h
          have h2 := lastDpLoop_stOk e pp.2 dp _ h1
          split
          · exact stOk_emit (msgOk_flow _ _ _ _ _ _) h2
          · exact h2

lemma inter1011NLoop_stOk (e : IFEnv) (i : Nat) (bpc : List Nat) (s0 : IFSt)
    (h : StOk e s0) : StOk e (inter1011NLoop e i bpc s0) := by
  unfold inter1011NLoop
  refine foldl_pres_mem (fun acc : IFSt × Bool => StOk e acc.1) _ _ ?_ _ h
  intro acc n _ hacc
  dsimp only
  split
  · exact hacc
  split
  · exact stOk_crash hacc
  split
  · rcases h1 : get_port_pair_from_link e.net.link_to_port (e.path.getD n 0)
        (e.path.getD (n - 1) 0) with _ | q1 <;> simp only [h1]
    · exact stOk_crash hacc
    · rcases h2 : get_port_pair_from_link e.net.link_to_port
          (e.path.getD n 0) (e.path.getD (n + 1) 0) with _ | q2 <;>
        simp only [h2]
      · exact stOk_crash hacc
      · exact stOk_emit (msgOk_flow _ _ _ _ _ _) hacc
  split
  · rcases hidx : pyIndexOpt bpc (e.path.getD n 0) with _ | p2 <;>
      simp only [hidx]
    · exact stOk_crash hacc
    · rcases hbp : tryBp bpc p2 (e.path.getD (n + 1) 0)
          (e.path.getD (n + 1) 0) with _ | bpv2 <;> simp only [hbp]
      · exact stOk_crash hacc
      · rcases h1 : get_port_pair_from_link e.net.link_to_port
            (e.path.getD n 0) bpv2 with _ | q1 <;> simp only [h1]
        · exact stOk_crash hacc
        · rcases h2 : get_port_pair_from_link e.net.link_to_port
              (e.path.getD n 0) (e.path.getD (n + 1) 0) with _ | q2 <;>
            simp only [h2]
          · exact stOk_crash hacc
          · exact stOk_emit (msgOk_flow _ _ _ _ _ _) hacc
  · exact hacc

lemma interM1011_stOk (e : IFEnv) (i : Nat)
    (src_port dst_port bp_port pp0 : Nat) (cm : List Nat) (s0 : IFSt)
    (h : StOk e s0) :
    StOk e (interM1011 e i src_port dst_port bp_port pp0 cm s0) := by
  unfold interM1011
  dsimp only
  have h6 : StOk e (emit (send_flow_mod (e.path.getD i 0) e.bi dst_port
      src_port (e.gid + 1))
      (emit (send_group_mod (e.path.getD i 0) (e.gid + 1) src_port bp_port 0)
        (emit (send_flow_mod (e.path.getD i 0) e.fi dst_port src_port 0)
          (emit (send_flow_mod (e.path.getD i 0) e.fi src_port dst_port
            e.gid)
            (emit (send_flow_mod (e.path.getD i 0) e.fi bp_port dst_port 0)
              (emit (send_group_mod (e.path.getD i 0) e.gid dst_port
                OFPP_IN_PORT src_port) s0)))))) :=
    stOk_emit (msgOk_flow _ _ _ _ _ _)
      (stOk_emit (msgOk_group _ _ _ _ _ _ (Or.inr rfl))
        (stOk_emit (msgOk_flow _ _ _ _ _ _)
          (stOk_emit (msgOk_flow _ _ _ _ _ _)
            (stOk_emit (msgOk_flow _ _ _ _ _ _)
              (stOk_emit (msgOk_group _ _ _ _ _ _ (Or.inl rfl)) h)))))
  split
  · exact stOk_crash h6
  rcases hidx2 : pyIndexOpt cm (e.path.getD (i - 1) 0) with _ | p2 <;>
    simp only [hidx2]
  · exact stOk_crash h6
  · rcases hbp : tryBp cm p2 (e.path.getD i 0) (e.path.getD (i + 1) 0)
        with _ | bpv2 <;> simp only [hbp]
    · exact stOk_crash h6
    · rcases hlk : get_port_pair_from_link e.net.link_to_port
          (e.path.getD (i - 1) 0) bpv2 with _ | q <;> simp only [hlk]
      · exact stOk_crash h6
      · exact inter1011NLoop_stOk e i _ _
          (stOk_emit (msgOk_flow _ _ _ _ _ _) h6)

lemma interM1010_stOk (e : IFEnv) (i : Nat)
    (src_port dst_port bp_port : Nat) (cm : List Nat) (s0 : IFSt)
    (h : StOk e s0) :
    StOk e (interM1010 e i src_port dst_port bp_port cm s0) := by
  unfold interM1010
  dsimp only
  rcases hidx3 : pyIndexOpt cm (e.path.getD i 0) with _ | p3 <;>
    simp only [hidx3]
  · exact stOk_crash h
  · rcases hbp : tryBp cm p3 (e.path.getD (i + 1) 0) (e.path.getD (i + 1) 0)
        with _ | bpv3 <;> simp only [hbp]
    · exact stOk_crash h
    · rcases hlk : get_port_pair_from_link e.net.link_to_port
          (e.path.getD i 0) bpv3 with _ | q <;> simp only [hlk]
      · exact stOk_crash h
      · exact stOk_emit (msgOk_flow _ _ _ _ _ _)
          (stOk_emit (msgOk_flow _ _ _ _ _ _)
            (stOk_emit (msgOk_group _ _ _ _ _ _ (Or.inr rfl))
              (stOk_emit (msgOk_flow _ _ _ _ _ _)
                (stOk_emit (msgOk_flow _ _ _ _ _ _)
                  (stOk_emit (msgOk_flow _ _ _ _ _ _)
                    (stOk_emit (msgOk_flow _ _ _ _ _ _)
                      (stOk_emit (msgOk_group _ _ _ _ _ _ (Or.inl rfl))
                        h)))))))

lemma interMLoop_stOk (e : IFEnv) (i : Nat)
    (src_port dst_port bp_port pp0 : Nat) (s0 : IFSt) (h : StOk e s0) :
    StOk e (interMLoop e i src_port dst_port bp_port pp0 s0).1 := by
  unfold interMLoop
  dsimp only
  refine foldl_pres_mem (fun acc : IFSt × Bool × Bool => StOk e acc.1)
    _ _ ?_ _ h
  intro acc m hm hacc
  rw [List.mem_range] at hm
  have hcm : e.net.cir_list.getD m [] ∈ e.net.cir_list := by
    rw [List.getD_eq_getElem _ _ hm]
    exact List.getElem_mem _
  split
  · exact hacc
  split
  · rcases hidx : pyIndexOpt (e.net.cir_list.getD m [])
        (e.path.getD i 0) with _ | p_ <;> simp only [hidx]
    · exact stOk_crash hacc
    · split
      · split
        · exact hacc
        split
        · exact interM1011_stOk _ _ _ _ _ _ _ _ hacc
        · exact interM1010_stOk _ _ _ _ _ _ _ hacc
      · rcases hdo : dirOf (e.net.cir_list.getD m [])
            p_ (e.path.getD (i + 1) 0) with _ | d <;> simp only [hdo]
        · simp only [crashSt]
          exact stOk_crash hacc
        · have hs1 := stOk_pairAppend' hcm (dirOf_dir _ _ _ _ hdo) hacc
          split
          · exact hs1
          split
          · exact interM1011_stOk _ _ _ _ _ _ _ _ hs1
          · exact interM1010_stOk _ _ _ _ _ _ _ hs1
  split
  · exact stOk_emit (msgOk_flow _ _ _ _ _ _)
      (stOk_emit (msgOk_flow _ _ _ _ _ _)
        (stOk_emit (msgOk_group _ _ _ _ _ _ (Or.inl rfl))
          (stOk_emit (msgOk_flow _ _ _ _ _ _)
            (stOk_emit (msgOk_flow _ _ _ _ _ _) hacc))))
  · exact hacc

lemma zero1Emit_stOk (e : IFEnv) (i : Nat) (src_port dst_port : Nat)
    (s0 : IFSt) (h : StOk e s0) :
    StOk e (zero1Emit e i src_port dst_port s0) := by
  unfold zero1Emit
  dsimp only
  split
  · exact h
  rcases hbp : s0.bp with _ | bpv <;> simp only [hbp]
  · exact stOk_crash h
  · rcases hlk : get_port_pair_from_link e.net.link_to_port
        (e.path.getD i 0) bpv with _ | q <;> simp only [hlk]
    · exact stOk_crash h
    · exact stOk_emit (msgOk_flow _ _ _ _ _ _)
        (stOk_emit (msgOk_flow _ _ _ _ _ _)
          (stOk_emit (msgOk_flow _ _ _ _ _ _)
            (stOk_emit (msgOk_flow _ _ _ _ _ _)
              (stOk_emit (msgOk_group _ _ _ _ _ _ (Or.inl rfl)) h))))

lemma zero1Action_stOk (e : IFEnv) (i : Nat) (src_port dst_port : Nat)
    (bp_cir : List Nat) (p : Nat) (s0 : IFSt)
    (hbc : bp_cir ∈ e.net.cir_list) (h : StOk e s0) :
    StOk e (zero1Action e i src_port dst_port bp_cir p s0) := by
  unfold zero1Action
  refine zero1Emit_stOk e i src_port dst_port _ ?_
  split
  · exact h
  · rcases htd : tryBpDir bp_cir p (e.path.getD (i + 1) 0)
        with _ | ⟨bpv, d⟩ <;> simp only [htd]
    · exact stOk_crash h
    · exact stOk_pairAppendBp hbc (tryBpDir_dir _ _ _ _ _ htd) h

lemma interJLoop_stOk (e : IFEnv) (i : Nat) (src_port dst_port pp0 : Nat)
    (s0 : IFSt) (h : StOk e s0) :
    StOk e (interJLoop e i src_port dst_port pp0 s0) := by
  unfold interJLoop loopB
  refine foldl_pres_mem (fun acc : IFSt × Bool => StOk e acc.1) _ _ ?_ _ h
  intro acc j hj hacc
  rw [List.mem_range] at hj
  have hcj : e.net.cir_list.getD j [] ∈ e.net.cir_list := by
    rw [List.getD_eq_getElem _ _ hj]
    exact List.getElem_mem _
  dsimp only
  split
  · exact hacc
  split
  · rcases hidx : pyIndexOpt (e.net.cir_list.getD j [])
        (e.path.getD i 0) with _ | p <;> simp only [hidx]
    · exact stOk_crash hacc
    · rcases hbp : tryBp (e.net.cir_list.getD j []) p
          (e.path.getD (i - 1) 0) (e.path.getD (i - 1) 0)
          with _ | bpv <;> simp only [hbp]
      · exact stOk_crash hacc
      · rcases hlk : get_port_pair_from_link e.net.link_to_port
            (e.path.getD i 0) bpv with _ | q <;> simp only [hlk]
        · exact stOk_crash (stOk_bp _ hacc)
        · exact interMLoop_stOk _ _ _ _ _ _ _ (stOk_bp _ hacc)
  split
  · exact stOk_emit (msgOk_flow _ _ _ _ _ _)
      (stOk_emit (msgOk_flow _ _ _ _ _ _)
        (stOk_emit (msgOk_group _ _ _ _ _ _ (Or.inr rfl))
          (stOk_emit (msgOk_flow _ _ _ _ _ _)
            (stOk_emit (msgOk_flow _ _ _ _ _ _)
              (stOk_emit (msgOk_group _ _ _ _ _ _ (Or.inl rfl)) hacc)))))
  split
  · split
    · rcases hidx : pyIndexOpt (e.net.cir_list.getD j [])
          (e.path.getD i 0) with _ | p <;> simp only [hidx]
      · exact stOk_crash (stOk_set01 hcj hacc)
      · exact zero1Action_stOk _ _ _ _ _ _ _ hcj (stOk_set01 hcj hacc)
    · exact stOk_set01 hcj hacc
  split
  · split
    · exact stOk_emit (msgOk_flow _ _ _ _ _ _)
        (stOk_emit (msgOk_flow _ _ _ _ _ _) hacc)
    · rename_i hne0
      rcases hidx : pyIndexOpt acc.1.cir_01 (e.path.getD i 0)
          with _ | p <;> simp only [hidx]
      · exact stOk_crash hacc
      · refine zero1Action_stOk _ _ _ _ _ _ _ ?_ hacc
        rcases hacc.2.2.2.2 with h01 | h01
        · rw [h01] at hne0
          simp at hne0
        · exact h01
  · exact hacc

lemma interBlock_stOk (e : IFEnv) (s0 : IFSt) (h : StOk e s0) :
    StOk e (interBlock e s0) := by
  unfold interBlock
  split
  · exact h
  refine foldl_pres_mem (fun s : IFSt => StOk e s) _ _ ?_ _ h
  intro s i _ hs
  dsimp only
  split
  · exact hs
  split
  · exact stOk_crash hs
  rcases h1 : get_port_pair_from_link e.net.link_to_port
      (e.path.getD (i - 1) 0) (e.path.getD i 0) with _ | pp <;>
    simp only [h1]
  · exact stOk_crash hs
  · rcases h2 : get_port_pair_from_link e.net.link_to_port
        (e.path.getD i 0) (e.path.getD (i + 1) 0) with _ | pn <;>
      simp only [h2]
    · exact stOk_crash hs
    · exact interJLoop_stOk _ _ _ _ _ _ hs

lemma bpStitch_stOk (e : IFEnv) (s0 : IFSt) (h : StOk e s0) :
    StOk e (bpStitch e s0) := by
  unfold bpStitch bpStitchVertex
  refine foldl_pres_mem (fun s : IFSt => StOk e s) _ _ ?_ _ h
  intro s j _ hs
  dsimp only
  split
  · exact hs
  refine foldl_pres_mem (fun s : IFSt => StOk e s) _ _ ?_ _ hs
  intro s2 w _ hs2
  dsimp only
  split
  · exact hs2
  split
  · exact hs2
  rcases hidx : pyIndexOpt (s.path_cir.getD j []) w with _ | p <;>
    simp only [hidx]
  · exact stOk_crash hs2
  · split
    · split
      · exact stOk_crash hs2
      · exact stOk_emit (msgOk_flow _ _ _ _ _ _)
          (stOk_emit (msgOk_flow _ _ _ _ _ _) hs2)
    · exact hs2

lemma onPathWalk_stOk (net : Net) (gid : Nat) (paths : List (List Nat))
    (fi4 : Nat × Nat × Nat × Nat) :
    StOk (mkIFEnv net gid (paths.headD []) fi4)
      (onPathWalk net gid paths fi4) := by
  rcases paths with _ | ⟨path, rest⟩
  · exact stOk_crash (stOk_init _)
  · unfold onPathWalk mkIFEnv
    dsimp only [List.head?, List.headD]
    split
    · exact stOk_init _
    split
    · exact stOk_crash (stOk_init _)
    split
    · exact stOk_init _
    rcases hlk : get_port_pair_from_link net.link_to_port (path.getD 0 0)
        (path.getD 1 0) with _ | pp <;> simp only [hlk]
    · exact stOk_crash (stOk_init _)
    · have h3 : StOk (⟨net, gid, (fi4.1, fi4.2.1, fi4.2.2.1),
          (fi4.1, fi4.2.2.1, fi4.2.1), fi4.2.2.2, path⟩ : IFEnv)
          (if ¬(firstDpLoop ⟨net, gid, (fi4.1, fi4.2.1, fi4.2.2.1),
                (fi4.1, fi4.2.2.1, fi4.2.1), fi4.2.2.2, path⟩ pp.1
                (emit (send_flow_mod (path.getD 0 0)
                  (fi4.1, fi4.2.2.1, fi4.2.1) 0 fi4.2.2.2 0)
                  IFSt.init)).1.crashed = true ∧
              ¬(firstDpLoop ⟨net, gid, (fi4.1, fi4.2.1, fi4.2.2.1),
                (fi4.1, fi4.2.2.1, fi4.2.1), fi4.2.2.2, path⟩ pp.1
                (emit (send_flow_mod (path.getD 0 0)
                  (fi4.1, fi4.2.2.1, fi4.2.1) 0 fi4.2.2.2 0)
                  IFSt.init)).2 = true then
            emit (send_flow_mod (path.getD 0 0) (fi4.1, fi4.2.1, fi4.2.2.1)
              fi4.2.2.2 pp.1 0)
              (firstDpLoop ⟨net, gid, (fi4.1, fi4.2.1, fi4.2.2.1),
                (fi4.1, fi4.2.2.1, fi4.2.1), fi4.2.2.2, path⟩ pp.1
                (emit (send_flow_mod (path.getD 0 0)
                  (fi4.1, fi4.2.2.1, fi4.2.1) 0 fi4.2.2.2 0)
                  IFSt.init)).1
          else (firstDpLoop ⟨net, gid, (fi4.1, fi4.2.1, fi4.2.2.1),
            (fi4.1, fi4.2.2.1, fi4.2.1), fi4.2.2.2, path⟩ pp.1
            (emit (send_flow_mod (path.getD 0 0)
              (fi4.1, fi4.2.2.1, fi4.2.1) 0 fi4.2.2.2 0)
              IFSt.init)).1) := by
        split
        · exact stOk_emit (msgOk_flow _ _ _ _ _ _)
            (firstDpLoop_stOk _ pp.1 _
              (stOk_emit (msgOk_flow _ _ _ _ _ _) (stOk_init _)))
        · exact firstDpLoop_stOk _ pp.1 _
            (stOk_emit (msgOk_flow _ _ _ _ _ _) (stOk_init _))
      exact interBlock_stOk _ _ (lastBlock_stOk _ _ h3)

lemma install_flow_stOk (net : Net) (gid : Nat) (paths : List (List Nat))
    (fi4 : Nat × Nat × Nat × Nat) (buf : Nat) (data : Option Nat) :
    StOk (mkIFEnv net gid (paths.headD []) fi4)
      (install_flow net gid paths fi4 buf data) := by
  unfold install_flow
  dsimp only
  split
  · exact onPathWalk_stOk net gid paths fi4
  · exact bpStitch_stOk _ _ (onPathWalk_stOk net gid paths fi4)



/-! ## Message-prefix invariance: the walk only appends to the trace -/

/-- `s'` extends `s`: the trace of `s` is a prefix of the trace of `s'`. -/
def Ext (s s' : IFSt) : Prop := s.msgs <+: s'.msgs

lemma ext_refl (s : IFSt) : Ext s s := List.prefix_refl _

lemma ext_trans {s t u : IFSt} (h1 : Ext s t) (h2 : Ext t u) : Ext s u :=
  List.IsPrefix.trans h1 h2

lemma ext_emit (m : Msg) (s : IFSt) : Ext s (emit m s) := by
  simp [Ext, emit]

lemma ext_crash (s : IFSt) : Ext s (crashSt s) := List.prefix_refl _

lemma ext_eq {s s' : IFSt} (h : s'.msgs = s.msgs) : Ext s s' := by
  simp [Ext, h]

lemma foldl_ext_proj {σ α : Type} (π : σ → IFSt) (f : σ → α → σ)
    (l : List α) (h : ∀ s x, x ∈ l → Ext (π s) (π (f s x))) (s : σ) :
    Ext (π s) (π (l.foldl f s)) :=
  foldl_pres_mem (fun s' => Ext (π s) (π s')) f l
    (fun s' x hx hE => ext_trans hE (h s' x hx)) s (ext_refl _)

lemma firstDpLoop_ext (e : IFEnv) (op : Nat) (s0 : IFSt) :
    Ext s0 (firstDpLoop e op s0).1 := by
  unfold firstDpLoop loopB
  refine foldl_ext_proj (fun a : IFSt × Bool => a.1) _ _ ?_ (s0, false)
  intro a cj _
  dsimp only
  repeat' split
  all_goals first
    | exact ext_refl _
    | exact ext_crash _
    | exact ext_eq rfl
    | (simp [Ext, emit, crashSt]; done)

lemma lastInnerLoop_ext (pm1 pl : Nat) (cj : List Nat) (p : Nat)
    (s0 : IFSt) : Ext s0 (lastInnerLoop pm1 pl cj p s0).1 := by
  unfold lastInnerLoop
  dsimp only
  refine foldl_ext_proj (fun a : IFSt × List Nat × Bool => a.1) _ _ ?_
    (s0, cj, false)
  intro a k _
  dsimp only
  repeat' split
  all_goals first
    | exact ext_refl _
    | exact ext_crash _
    | exact ext_eq rfl
    | (simp [Ext, emit, crashSt]; done)

lemma lastDpLoop_ext (e : IFEnv) (sp dp : Nat) (s0 : IFSt) :
    Ext s0 (lastDpLoop e sp dp s0).1 := by
  unfold lastDpLoop loopB
  refine foldl_ext_proj (fun a : IFSt × Bool => a.1) _ _ ?_ (s0, false)
  intro a cj _
  dsimp only
  split
  · exact ext_refl _
  split
  · rcases hidx : pyIndexOpt cj (e.path.getD (e.path.length - 1) 0)
        with _ | p <;> simp only [hidx]
    · exact ext_crash _
    · have hin := lastInnerLoop_ext (e.path.getD (e.path.length - 2) 0)
        (e.path.getD (e.path.length - 1) 0) cj p a.1
      split
      · exact hin
      rcases hbp : tryBp (lastInnerLoop (e.path.getD (e.path.length - 2) 0)
          (e.path.getD (e.path.length - 1) 0) cj p a.1).2 p
          (e.path.getD (e.path.length - 2) 0)
          (e.path.getD (e.path.length - 2) 0) with _ | bpv <;>
        simp only [hbp]
      · exact ext_trans hin (ext_crash _)
      · rcases hlk : get_port_pair_from_link e.net.link_to_port
            (e.path.getD (e.path.length - 1) 0) bpv with _ | pp2 <;>
          simp only [hlk]
        · exact ext_trans hin (ext_eq rfl)
        · exact ext_trans hin (by simp [Ext, emit])
  · exact ext_refl _

lemma lastBlock_ext (e : IFEnv) (s0 : IFSt) : Ext s0 (lastBlock e s0) := by
  unfold lastBlock
  dsimp only
  split
  · exact ext_refl _
  · split
    · exact ext_crash _
    · rcases hlk : get_port_pair_from_link e.net.link_to_port
          (e.path.getD (e.path.length - 2) 0)
          (e.path.getD (e.path.length - 1) 0) with _ | pp <;>
        simp only [hlk]
      · exact ext_crash _
      · rcases hgp : get_port e.fi.2.2 e.net.access_table with _ | dp2 <;>
          simp only [hgp]
        · exact ext_crash _
        · have h1 : Ext s0 (emit (send_flow_mod
              (e.path.getD (e.path.length - 1) 0) e.fi 0 dp2 0) s0) :=
            ext_emit _ _
          have h2 := lastDpLoop_ext e pp.2 dp2
            (emit (send_flow_mod (e.path.getD (e.path.length - 1) 0)
              e.fi 0 dp2 0) s0)
          split
          · exact ext_trans h1 (ext_trans h2 (ext_emit _ _))
          · exact ext_trans h1 h2

lemma inter1011NLoop_ext (e : IFEnv) (i : Nat) (bpc : List Nat)
    (s0 : IFSt) : Ext s0 (inter1011NLoop e i bpc s0) := by
  unfold inter1011NLoop
  refine foldl_ext_proj (fun a : IFSt × Bool => a.1) _ _ ?_ (s0, false)
  intro a n _
  dsimp only
  repeat' split
  all_goals first
    | exact ext_refl _
    | exact ext_crash _
    | exact ext_eq rfl
    | (simp [Ext, emit, crashSt]; done)

lemma interM1011_ext (e : IFEnv) (i sp dp bpp pp0 : Nat) (cm : List Nat)
    (s0 : IFSt) : Ext s0 (interM1011 e i sp dp bpp pp0 cm s0) := by
  unfold interM1011
  dsimp only
  have h6 : Ext s0 (emit (send_flow_mod (e.path.getD i 0) e.bi dp
      sp (e.gid + 1))
      (emit (send_group_mod (e.path.getD i 0) (e.gid + 1) sp bpp 0)
        (emit (send_flow_mod (e.path.getD i 0) e.fi dp sp 0)
          (emit (send_flow_mod (e.path.getD i 0) e.fi sp dp e.gid)
            (emit (send_flow_mod (e.path.getD i 0) e.fi bpp dp 0)
              (emit (send_group_mod (e.path.getD i 0) e.gid dp
                OFPP_IN_PORT sp) s0)))))) := by
    simp [Ext, emit]
  split
  · exact ext_trans h6 (ext_crash _)
  rcases hidx2 : pyIndexOpt cm (e.path.getD (i - 1) 0) with _ | p2 <;>
    simp only [hidx2]
  · exact ext_trans h6 (ext_crash _)
  · rcases hbp : tryBp cm p2 (e.path.getD i 0) (e.path.getD (i + 1) 0)
        with _ | bpv2 <;> simp only [hbp]
    · exact ext_trans h6 (ext_crash _)
    · rcases hlk : get_port_pair_from_link e.net.link_to_port
          (e.path.getD (i - 1) 0) bpv2 with _ | q <;> simp only [hlk]
      · exact ext_trans h6 (ext_crash _)
      · exact ext_trans (ext_trans h6 (ext_emit _ _))
          (inter1011NLoop_ext _ _ _ _)

lemma interM1010_ext (e : IFEnv) (i sp dp bpp : Nat) (cm : List Nat)
    (s0 : IFSt) : Ext s0 (interM1010 e i sp dp bpp cm s0) := by
  unfold interM1010
  dsimp only
  repeat' split
  all_goals first
    | exact ext_refl _
    | exact ext_crash _
    | (simp [Ext, emit, crashSt]; done)

lemma interMLoop_ext (e : IFEnv) (i sp dp bpp pp0 : Nat) (s0 : IFSt) :
    Ext s0 (interMLoop e i sp dp bpp pp0 s0).1 := by
  unfold interMLoop
  dsimp only
  refine foldl_ext_proj (fun a : IFSt × Bool × Bool => a.1) _ _ ?_
    (s0, false, false)
  intro a m _
  dsimp only
  split
  · exact ext_refl _
  split
  · rcases hidx : pyIndexOpt (e.net.cir_list.getD m [])
        (e.path.getD i 0) with _ | p_ <;> simp only [hidx]
    · exact ext_crash _
    · split
      · split
        · exact ext_refl _
        split
        · exact interM1011_ext _ _ _ _ _ _ _ _
        · exact interM1010_ext _ _ _ _ _ _ _
      · rcases hdo : dirOf (e.net.cir_list.getD m [])
            p_ (e.path.getD (i + 1) 0) with _ | d <;> simp only [hdo]
        · simp only [crashSt]
          exact ext_eq rfl
        · have hm : Ext a.1 { a.1 with
              path_cir := a.1.path_cir ++ [e.net.cir_list.getD m []],
              cir_dir := a.1.cir_dir ++ [d] } := ext_eq rfl
          split
          · exact hm
          split
          · exact ext_trans hm (interM1011_ext _ _ _ _ _ _ _ _)
          · exact ext_trans hm (interM1010_ext _ _ _ _ _ _ _)
  split
  · simp [Ext, emit]
  · exact ext_refl _

lemma zero1Emit_ext (e : IFEnv) (i sp dp : Nat) (s : IFSt) :
    Ext s (zero1Emit e i sp dp s) := by
  unfold zero1Emit
  dsimp only
  repeat' split
  all_goals first
    | exact ext_refl _
    | exact ext_crash _
    | (simp [Ext, emit, crashSt]; done)

lemma zero1Action_ext (e : IFEnv) (i sp dp : Nat) (bpc : List Nat)
    (p : Nat) (s0 : IFSt) : Ext s0 (zero1Action e i sp dp bpc p s0) := by
  unfold zero1Action
  refine ext_trans ?_ (zero1Emit_ext _ _ _ _ _)
  repeat' split
  all_goals first
    | exact ext_refl _
    | exact ext_crash _
    | exact ext_eq rfl

lemma interJLoop_ext (e : IFEnv) (i sp dp pp0 : Nat) (s0 : IFSt) :
    Ext s0 (interJLoop e i sp dp pp0 s0) := by
  unfold interJLoop loopB
  refine foldl_ext_proj (fun a : IFSt × Bool => a.1) _ _ ?_ (s0, false)
  intro a j _
  dsimp only
  split
  · exact ext_refl _
  split
  · rcases hidx : pyIndexOpt (e.net.cir_list.getD j [])
        (e.path.getD i 0) with _ | p <;> simp only [hidx]
    · exact ext_crash _
    · rcases hbp : tryBp (e.net.cir_list.getD j []) p
          (e.path.getD (i - 1) 0) (e.path.getD (i - 1) 0)
          with _ | bpv <;> simp only [hbp]
      · exact ext_crash _
      · rcases hlk : get_port_pair_from_link e.net.link_to_port
            (e.path.getD i 0) bpv with _ | q <;> simp only [hlk]
        · exact ext_eq rfl
        · have hm : Ext a.1 { a.1 with bp := some bpv } := ext_eq rfl
          exact ext_trans hm (interMLoop_ext _ _ _ _ _ _ _)
  split
  · simp [Ext, emit]
  split
  · split
    · rcases hidx : pyIndexOpt (e.net.cir_list.getD j [])
          (e.path.getD i 0) with _ | p <;> simp only [hidx]
      · exact ext_eq rfl
      · have hm : Ext a.1 { a.1 with cir_01 := e.net.cir_list.getD j [] } :=
          ext_eq rfl
        exact ext_trans hm (zero1Action_ext _ _ _ _ _ _ _)
    · exact ext_eq rfl
  split
  · split
    · simp [Ext, emit]
    · rcases hidx : pyIndexOpt a.1.cir_01 (e.path.getD i 0)
          with _ | p <;> simp only [hidx]
      · exact ext_crash _
      · exact zero1Action_ext _ _ _ _ _ _ _
  · exact ext_refl _

lemma interBlock_ext (e : IFEnv) (s0 : IFSt) : Ext s0 (interBlock e s0) := by
  unfold interBlock
  split
  · exact ext_refl _
  · refine foldl_ext_proj (fun a : IFSt => a) _ _ ?_ s0
    intro s i _
    dsimp only
    repeat' split
    all_goals first
      | exact ext_refl _
      | exact ext_crash _
      | exact interJLoop_ext _ _ _ _ _ _

lemma bpStitch_ext (e : IFEnv) (s0 : IFSt) : Ext s0 (bpStitch e s0) := by
  unfold bpStitch bpStitchVertex
  refine foldl_ext_proj (fun a : IFSt => a) _ _ ?_ s0
  intro s j _
  dsimp only
  split
  · exact ext_refl _
  · refine foldl_ext_proj (fun a : IFSt => a) _ _ ?_ s
    intro t w _
    dsimp only
    repeat' split
    all_goals first
      | exact ext_refl _
      | exact ext_crash _
      | (simp [Ext, emit, crashSt]; done)


lemma ext_head {s s' : IFSt} (h : Ext s s') (m : Msg)
    (hm : s.msgs.head? = some m) : s'.msgs.head? = some m := by
  obtain ⟨t, ht⟩ := h
  rcases hs : s.msgs with _ | ⟨a, l⟩
  · rw [hs] at hm
    cases hm
  · rw [hs] at hm ht
    rw [← ht]
    simpa using hm

lemma ext_ite (c : Prop) [Decidable c] (m : Msg) {s s' : IFSt}
    (h : Ext s s') : Ext s (if c then emit m s' else s') := by
  split
  · exact ext_trans h (ext_emit _ _)
  · exact h

lemma onPathWalk_head (net : Net) (gid : Nat) (paths : List (List Nat))
    (fi4 : Nat × Nat × Nat × Nat) :
    onPathWalk net gid paths fi4 = IFSt.init ∨
    onPathWalk net gid paths fi4 = crashSt IFSt.init ∨
    (onPathWalk net gid paths fi4).msgs.head? =
      some (send_flow_mod ((paths.headD []).getD 0 0)
        (fi4.1, fi4.2.2.1, fi4.2.1) 0 fi4.2.2.2 0) := by
  rcases paths with _ | ⟨path, rest⟩
  · exact Or.inr (Or.inl rfl)
  · unfold onPathWalk
    dsimp only [List.head?, List.headD]
    split
    · exact Or.inl rfl
    split
    · exact Or.inr (Or.inl rfl)
    split
    · exact Or.inl rfl
    rcases hlk : get_port_pair_from_link net.link_to_port (path.getD 0 0)
        (path.getD 1 0) with _ | pp
    · exact Or.inr (Or.inl rfl)
    · right; right
      have h1 := firstDpLoop_ext ⟨net, gid, (fi4.1, fi4.2.1, fi4.2.2.1),
          (fi4.1, fi4.2.2.1, fi4.2.1), fi4.2.2.2, path⟩ pp.1
        (emit (send_flow_mod (path.getD 0 0) (fi4.1, fi4.2.2.1, fi4.2.1) 0
          fi4.2.2.2 0) IFSt.init)
      refine ext_head (ext_trans (ext_ite _ _ h1)
        (ext_trans (lastBlock_ext _ _) (interBlock_ext _ _))) _ ?_
      rfl

lemma install_flow_head (net : Net) (gid : Nat) (paths : List (List Nat))
    (fi4 : Nat × Nat × Nat × Nat) (buf : Nat) (data : Option Nat) :
    (install_flow net gid paths fi4 buf data).msgs = [] ∨
    (install_flow net gid paths fi4 buf data).msgs.head? =
      some (send_flow_mod ((paths.headD []).getD 0 0)
        (fi4.1, fi4.2.2.1, fi4.2.1) 0 fi4.2.2.2 0) := by
  unfold install_flow
  dsimp only
  split
  · rcases onPathWalk_head net gid paths fi4 with h | h | h
    · rw [h]; exact Or.inl rfl
    · rw [h]; exact Or.inl rfl
    · exact Or.inr h
  · rename_i hc
    rcases onPathWalk_head net gid paths fi4 with h | h | h
    · rw [h]
      exact Or.inl rfl
    · rw [h] at hc
      simp [crashSt] at hc
    · refine Or.inr (ext_head (bpStitch_ext _ _) _ h)

/-! ## Concrete scenarios

`netK3`: a triangle `1-2-3` with hosts on switches `1` and `2` and the
(authentic) catalogue `[[1,2,3]]`; ports are numbered `10·a+b` for the
`a → b` side of each link.

`GC2`/`netC2`: the topology with edges
`{1,2},{1,5},{2,3},{2,4},{3,4},{3,5}`, hosts on switches `1` and `3`,
whose catalogue contains a cycle with the last hop `(2,3)` appearing
before the cycle recorded at the first hop. -/

def netK3 : Net :=
  { datapaths := [1, 2, 3]
    link_to_port := [((1,2),(12,21)), ((2,1),(21,12)), ((1,3),(13,31)),
                     ((3,1),(31,13)), ((2,3),(23,32)), ((3,2),(32,23))]
    cir_list := [[1, 2, 3]]
    access_table := [((1,7),(101,0)), ((2,9),(102,0))] }

def GK3 : Nat → List Nat
  | 1 => [2, 3]
  | 2 => [1, 3]
  | 3 => [1, 2]
  | _ => []

example : (find_all_cirs GK3 3 []).2 = netK3.cir_list := by decide

def GC2 : Nat → List Nat
  | 1 => [2, 5]
  | 2 => [1, 3, 4]
  | 3 => [2, 4, 5]
  | 4 => [2, 3]
  | 5 => [1, 3]
  | _ => []

def netC2 : Net :=
  { datapaths := [1, 2, 3, 4, 5]
    link_to_port := [((1,2),(12,21)), ((2,1),(21,12)), ((1,5),(15,51)),
                     ((5,1),(51,15)), ((2,3),(23,32)), ((3,2),(32,23)),
                     ((2,4),(24,42)), ((4,2),(42,24)), ((3,4),(34,43)),
                     ((4,3),(43,34)), ((3,5),(35,53)), ((5,3),(53,35))]
    cir_list := [[2,3,4], [1,2,3,5], [1,2,4,3,5]]
    access_table := [((1,7),(101,0)), ((3,9),(102,0))] }

example : (find_all_cirs GC2 5 []).2 = netC2.cir_list := by decide

/-! ## Claim C2: backup next-hop selection -/

/-- `b` is an immediate neighbour of `a` in the cycle `C`: they occupy
positions at cyclic distance one. -/
def cycleNeighbor (C : List Nat) (a b : Nat) : Prop :=
  ∃ q, q < C.length ∧ C.getD q 0 = a ∧
    (C.getD ((q + 1) % C.length) 0 = b ∨
     C.getD ((q + C.length - 1) % C.length) 0 = b)

instance (C : List Nat) (a b : Nat) : Decidable (cycleNeighbor C a b) :=
  inferInstanceAs (Decidable (∃ q, q < C.length ∧ C.getD q 0 = a ∧
    (C.getD ((q + 1) % C.length) 0 = b ∨
     C.getD ((q + C.length - 1) % C.length) 0 = b)))

/-- **C2 (code bug).**  On the path `[1,2,3]` of `netC2`, whose catalogue
is exactly `find_all_cirs` of its graph, the `last_dp` block selects the
backup next-hop `3` — the last switch itself.  The index `p` was computed
in `cir_list[0] = [2,3,4]` but applied to the re-used recorded cycle
`[1,2,3,5]`, so the selected hop is not a neighbour of switch `3` in any
catalogue cycle containing the last hop `(2,3)`; `install_flow` then
crashes looking up the non-existent link `(3,3)` after five messages. -/
theorem install_flow_last_dp_stale_index_selects_non_neighbor :
    netC2.cir_list = (find_all_cirs GC2 5 []).2 ∧
    (install_flow netC2 2 [[1, 2, 3]] (2048, 101, 102, 7) OFP_NO_BUFFER
      (some 55)).bp = some 3 ∧
    (install_flow netC2 2 [[1, 2, 3]] (2048, 101, 102, 7) OFP_NO_BUFFER
      (some 55)).crashed = true ∧
    (∀ C ∈ netC2.cir_list, 2 ∈ C ∧ 3 ∈ C → ¬ cycleNeighbor C 3 3) := by
  decide

/-! ## Claim C4: the same-switch case -/

/-- **C4 (amended).**  When the primary path consists of a single switch,
`install_flow` returns before installing anything: no FlowMod, no
GroupMod, and no PacketOut is emitted. -/
theorem install_flow_single_switch_emits_nothing
    (net : Net) (gid : Nat) (paths : List (List Nat))
    (fi4 : Nat × Nat × Nat × Nat) (buf : Nat) (data : Option Nat)
    (p0 : List Nat) (hp : paths.head? = some p0) (hlen : p0.length = 1) :
    (install_flow net gid paths fi4 buf data).msgs = [] := by
  rcases paths with _ | ⟨path, rest⟩
  · simp at hp
  · simp only [List.head?_cons, Option.some_inj] at hp
    subst hp
    have hwalk : onPathWalk net gid (path :: rest) fi4 = crashSt IFSt.init ∨
        onPathWalk net gid (path :: rest) fi4 = IFSt.init := by
      unfold onPathWalk
      dsimp only [List.head?]
      rw [if_neg (by omega)]
      split
      · exact Or.inl rfl
      · rw [if_pos (by omega)]
        exact Or.inr rfl
    unfold install_flow
    rcases hwalk with hw | hw <;> rw [hw]
    · simp [crashSt, IFSt.init]
    · simp only [IFSt.init]
      unfold bpStitch
      simp [IFSt.init]

/-- Witness for the amended C4 at a concrete same-switch input. -/
theorem install_flow_single_switch_emits_nothing_witness :
    (install_flow netK3 2 [[1]] (2048, 101, 102, 7) OFP_NO_BUFFER
      (some 55)).msgs = [] :=
  install_flow_single_switch_emits_nothing netK3 2 [[1]]
    (2048, 101, 102, 7) OFP_NO_BUFFER (some 55) [1] rfl (by decide)

/-- **C4 (counterexample).**  At a same-switch input the claimed shape
— exactly two FlowMods, one PacketOut and no GroupMods — does not hold:
nothing at all is emitted. -/
theorem install_flow_single_switch_claim_false :
    ¬ ((install_flow netK3 2 [[1]] (2048, 101, 102, 7) OFP_NO_BUFFER
          (some 55)).msgs.countP Msg.isFlowMod = 2 ∧
       (install_flow netK3 2 [[1]] (2048, 101, 102, 7) OFP_NO_BUFFER
          (some 55)).msgs.countP Msg.isPacketOut = 1 ∧
       (install_flow netK3 2 [[1]] (2048, 101, 102, 7) OFP_NO_BUFFER
          (some 55)).msgs.countP Msg.isGroupMod = 0) := by
  decide

/-! ## Claim C8: forward/backward pairing -/

/-- A FlowMod on switch `dpid` matching `bi` with the given in/out ports,
regardless of its group action. -/
def swappedBackAt (dpid : Nat) (bi : MatchInfo) (ip op : Nat) : Msg → Bool
  | .flowMod d i p q _ => d == dpid && i == bi && p == ip && q == op
  | _ => false

/-- **C8 (amended).**  Not every forward entry has a port-swapped backward
counterpart: whenever `install_flow` emits anything at all, its very first
message is the first switch's backward entry, which matches
`(dst_ip, src_ip)` with a wildcard `in_port` (0) and outputs the
host-facing access port — not the port-swapped image of the forward exact
entry installed on that switch. -/
theorem install_flow_first_message_is_wildcard_backward
    (net : Net) (gid : Nat) (paths : List (List Nat))
    (fi4 : Nat × Nat × Nat × Nat) (buf : Nat) (data : Option Nat) :
    (install_flow net gid paths fi4 buf data).msgs = [] ∨
    (install_flow net gid paths fi4 buf data).msgs.head? =
      some (send_flow_mod ((paths.headD []).getD 0 0)
        (fi4.1, fi4.2.2.1, fi4.2.1) 0 fi4.2.2.2 0) :=
  install_flow_head net gid paths fi4 buf data

/-- **C8 (counterexample).**  In the two-switch run the forward exact
entry `in 7 → out 12` is installed on switch `1`, but no backward entry on
switch `1` matching `(dst_ip, src_ip)` has the swapped ports
`in 12 → out 7`. -/
theorem install_flow_forward_entry_without_swapped_backward :
    Msg.flowMod 1 (2048, 101, 102) 7 12 2 ∈
      (install_flow netK3 2 [[1, 2]] (2048, 101, 102, 7) 99
        (some 55)).msgs ∧
    (install_flow netK3 2 [[1, 2]] (2048, 101, 102, 7) 99
      (some 55)).msgs.countP (swappedBackAt 1 (2048, 102, 101) 12 7) = 0 := by
  decide

/-! ## Claim C6: group ids (counterexample half) -/

/-- **C6 (counterexample to the direction attribution).**  In the
two-switch run with counter value `gid = 2`, the Fast-Failover group
installed at the last switch carries id `2 = gid` although it serves the
reverse direction — the flow entry pointing at it matches
`(dst_ip, src_ip) = (102, 101)` — and no message of the whole run carries
`gid + 1 = 3`. -/
theorem install_flow_backward_group_uses_forward_gid :
    Msg.groupMod 2 2 21 21 23 23 ∈
      (install_flow netK3 2 [[1, 2]] (2048, 101, 102, 7) 99
        (some 55)).msgs ∧
    Msg.flowMod 2 (2048, 102, 101) 9 21 2 ∈
      (install_flow netK3 2 [[1, 2]] (2048, 101, 102, 7) 99
        (some 55)).msgs ∧
    (install_flow netK3 2 [[1, 2]] (2048, 101, 102, 7) 99
      (some 55)).msgs.countP (fun m => m.gidOf == some 3) = 0 := by
  decide

/-! ## Claim C5: PacketOut after programming -/

/-- The data-attachment flag of a PacketOut. -/
def Msg.withDataOf : Msg → Option Bool
  | .packetOut _ _ _ _ w => some w
  | _ => none

/-- **C5 (amended).**  `install_flow` never emits a PacketOut — on any
input its trace contains none, and the `buffer_id`/`data` arguments do not
influence the result at all.  The buffered/unbuffered dichotomy of the
claim holds of the helper `_build_packet_out` (used only on the ARP path):
a built message carries raw data exactly when `buffer_id = OFP_NO_BUFFER`,
and nothing is built when there is neither a buffer nor data. -/
theorem install_flow_no_packet_out
    (net : Net) (gid : Nat) (paths : List (List Nat))
    (fi4 : Nat × Nat × Nat × Nat) (buf buf' : Nat) (data data' : Option Nat) :
    (install_flow net gid paths fi4 buf data).msgs.countP
        Msg.isPacketOut = 0 ∧
    install_flow net gid paths fi4 buf data
      = install_flow net gid paths fi4 buf' data' ∧
    (∀ dpid bid sp dp dat m, build_packet_out dpid bid sp dp dat = some m →
      (m.withDataOf = some true ↔ bid = OFP_NO_BUFFER) ∧
      (bid = OFP_NO_BUFFER → dat ≠ none)) := by
  refine ⟨?_, rfl, ?_⟩
  · rw [List.countP_eq_zero]
    intro m hm
    have h := (install_flow_stOk net gid paths fi4 buf data).1 m hm
    simp [h.1]
  · intro dpid bid sp dp dat m hbld
    unfold build_packet_out at hbld
    dsimp only at hbld
    by_cases hc : bid = OFP_NO_BUFFER ∧ dat = none
    · rw [if_pos hc] at hbld
      exact absurd hbld (by simp)
    · rw [if_neg hc] at hbld
      rw [Option.some_inj] at hbld
      subst hbld
      refine ⟨?_, fun hb hd => hc ⟨hb, hd⟩⟩
      simp [Msg.withDataOf]

/-- **C5 (counterexample).**  A two-switch run that programs the path
completely (no crash, ten messages installed) emits no PacketOut, although
a valid `buffer_id` and raw bytes are both supplied. -/
theorem install_flow_no_packet_out_on_successful_run :
    (install_flow netK3 2 [[1, 2]] (2048, 101, 102, 7) 99
      (some 55)).crashed = false ∧
    (install_flow netK3 2 [[1, 2]] (2048, 101, 102, 7) 99
      (some 55)).msgs ≠ [] ∧
    (install_flow netK3 2 [[1, 2]] (2048, 101, 102, 7) 99
      (some 55)).msgs.countP Msg.isPacketOut = 0 := by
  decide


/-! ## The ARP path and the packet-in dispatcher (lines 140-234, 276-294,
755-817)

The topology-discovery module `network_awareness` is referenced by the
dispatcher but is not part of the sources; its read side is modelled from
the spec as plain environment data: `access_ports` (the access-port map
`{dpid: set of ports}`), the access table (already part of `Net`) with its
lookup `get_host_location`, and the hop-count path table `shortest_paths`
read by `get_path` in the default (`hop`) weight mode. -/

/-- Modelled from the spec: `get_host_location(ip)` returns the access-table
key `(dpid, port)` whose recorded host ip matches, else `None` (§ host
location; the `network_awareness` module is absent from the sources). -/
def get_host_location (access_table : List ((Nat × Nat) × (Nat × Nat)))
    (ip : Nat) : Option (Nat × Nat) :=
  (access_table.find? (fun e => e.2.1 == ip)).map (·.1)

/-- The inner `for port in access_ports[dpid]` loop of `flood` (source
lines 206-212). -/
def floodInner (datapaths : List Nat)
    (access_table : List ((Nat × Nat) × (Nat × Nat))) (data : Option Nat)
    (dpid : Nat) (ports : List Nat) (acc : List Msg × Bool) :
    List Msg × Bool :=
  ports.foldl
    (fun (acc2 : List Msg × Bool) port =>
      if acc2.2 then acc2
      else if (access_table.find? (fun kv => kv.1 == (dpid, port))).isSome
      then acc2
      else if dpid ∉ datapaths then (acc2.1, true)
      else
        match build_packet_out dpid OFP_NO_BUFFER OFPP_CONTROLLER
            (some port) data with
        | some m => (acc2.1 ++ [m], false)
        | none => (acc2.1, true))
    acc

/-- `flood(msg)` (source lines 196-213): one PacketOut out of every access
port that is not a key of the access table.  `self.datapaths[dpid]` raises
`KeyError` for an unregistered switch, and `send_msg(None)` (when
`_build_packet_out` returns `None`) raises; either aborts the whole loop.
Returns the messages sent before any such crash, and the crash flag. -/
def flood (datapaths : List Nat) (access_ports : List (Nat × List Nat))
    (access_table : List ((Nat × Nat) × (Nat × Nat))) (data : Option Nat) :
    List Msg × Bool :=
  access_ports.foldl
    (fun (acc : List Msg × Bool) ent =>
      if acc.2 then acc
      else floodInner datapaths access_table data ent.1 ent.2 acc)
    ([], false)

/-- `arp_forwarding(msg, src_ip, dst_ip)` (source lines 215-234): answer to
the learned location of `dst_ip`, else flood. -/
def arp_forwarding (datapaths : List Nat)
    (access_ports : List (Nat × List Nat))
    (access_table : List ((Nat × Nat) × (Nat × Nat))) (data : Option Nat)
    (dst_ip : Nat) : List Msg × Bool :=
  match get_host_location access_table dst_ip with
  | some loc =>
    if loc.1 ∉ datapaths then ([], true)
    else
      match build_packet_out loc.1 OFP_NO_BUFFER OFPP_CONTROLLER
          (some loc.2) data with
      | some m => ([m], false)
      | none => ([], true)
  | none => flood datapaths access_ports access_table data

/-- Result of `get_sw` (source lines 276-294): an uncaught `KeyError` from
`access_ports[dpid]`, Python's `return None`, or the pair
`(src_sw, dst_sw)` where `dst_sw` may itself be `None`. -/
inductive SwRes where
  | crash
  | noneRes
  | ok (src_sw : Nat) (dst_sw : Option Nat)
deriving DecidableEq, Repr

/-- `get_sw(dpid, in_port, src, dst)` (source lines 276-294). -/
def get_sw (access_ports : List (Nat × List Nat))
    (access_table : List ((Nat × Nat) × (Nat × Nat)))
    (dpid in_port src dst : Nat) : SwRes :=
  match access_ports.find? (fun e => e.1 == dpid) with
  | none => .crash
  | some ent =>
    let dst_sw : Option Nat := (get_host_location access_table dst).map (·.1)
    if in_port ∈ ent.2 then
      match get_host_location access_table src with
      | some loc =>
        if (dpid, in_port) = loc then .ok loc.1 dst_sw else .noneRes
      | none => .noneRes
    else .ok dpid dst_sw

/-- `get_path` in the default `hop` weight mode (source lines 243-246):
`shortest_paths.get(src).get(dst)`.  A missing `src` key makes the source
call `.get` on `None` (`AttributeError`, outer `none`); a missing `dst`
key yields Python `None` (inner `none`). -/
def get_path_hop (sp : List (Nat × List (Nat × List (List Nat))))
    (src dst : Nat) : Option (Option (List (List Nat))) :=
  match sp.find? (fun e => e.1 == src) with
  | none => none
  | some ent => some ((ent.2.find? (fun e => e.1 == dst)).map (·.2))

/-- The read-only environment of the dispatcher: the `install_flow` inputs
plus the spec-modelled `network_awareness` data. -/
structure Env where
  net : Net
  access_ports : List (Nat × List Nat)
  shortest_paths : List (Nat × List (Nat × List (List Nat)))
deriving Repr

/-- `shortest_forwarding(msg, eth_type, ip_src, ip_dst)` (source lines
755-782): resolve the switches, fetch the paths, and hand over to
`install_flow`; unknown src or dst switch returns silently.  The boolean
is the crash flag (`get_sw` KeyError, `None.get`, `None[0]` or `[][0]`,
or a crash inside `install_flow`). -/
def shortest_forwarding (env : Env) (gid : Nat)
    (dpid in_port eth_type src dst buffer_id : Nat) (data : Option Nat) :
    List Msg × Bool :=
  match get_sw env.access_ports env.net.access_table dpid in_port src dst with
  | .crash => ([], true)
  | .noneRes => ([], false)
  | .ok src_sw dst_sw? =>
    match dst_sw? with
    | none => ([], false)
    | some dst_sw =>
      if dst_sw = 0 then ([], false)
      else
        match get_path_hop env.shortest_paths src_sw dst_sw with
        | none => ([], true)
        | some none => ([], true)
        | some (some paths) =>
          match paths.head? with
          | none => ([], true)
          | some _ =>
            let r := install_flow env.net gid paths
              (eth_type, src, dst, in_port) buffer_id data
            (r.msgs, r.crashed)

/-- One packet-in event: the parsed protocols of `msg.data` and the OpenFlow
metadata read by the handler. -/
structure PktEv where
  dpid : Nat
  in_port : Nat
  arp : Option (Nat × Nat)
  ipv4 : Option (Nat × Nat)
  hasEth : Bool
  eth_type : Nat
  buffer_id : Nat
  data : Option Nat
deriving Repr

/-- `_packet_in_handler` (source lines 784-817): the ARP branch, then the
IPv4 branch with the unconditional `self.gid += 2` before
`shortest_forwarding`.  Returns the new counter value, the messages sent,
and the crash flag (an exception in the ARP branch skips the IPv4 branch). -/
def packet_in (env : Env) (gid : Nat) (ev : PktEv) :
    Nat × List Msg × Bool :=
  let ar : List Msg × Bool :=
    match ev.arp with
    | some sd => arp_forwarding env.net.datapaths env.access_ports
        env.net.access_table ev.data sd.2
    | none => ([], false)
  if ar.2 then (gid, ar.1, true)
  else
    match ev.ipv4 with
    | none => (gid, ar.1, false)
    | some sd =>
      if ev.hasEth then
        let r := shortest_forwarding env (gid + 2) ev.dpid ev.in_port
          ev.eth_type sd.1 sd.2 ev.buffer_id ev.data
        (gid + 2, ar.1 ++ r.1, r.2)
      else (gid, ar.1, false)

/-- A sequence of packet-in events handled by one controller process
(initial counter `self.gid = 0` set in `__init__`): the final counter and
the per-event traces.  An uncaught handler exception is logged by the
framework and does not stop the event loop. -/
def runEvents (env : Env) : Nat → List PktEv → Nat × List (List Msg)
  | gid, [] => (gid, [])
  | gid, ev :: evs =>
    let r := packet_in env gid ev
    let rest := runEvents env r.1 evs
    (rest.1, r.2.1 :: rest.2)

/-- The group ids carried by the GroupMods of a trace. -/
def gidsOf (msgs : List Msg) : List Nat := msgs.filterMap Msg.gidOf

/-! ## Claims C6/C7: the group-id counter and silent drops -/

lemma build_packet_out_gidOf {dpid bid sp : Nat} {dp : Option Nat}
    {dat : Option Nat} {m : Msg}
    (h : build_packet_out dpid bid sp dp dat = some m) : m.gidOf = none := by
  unfold build_packet_out at h
  dsimp only at h
  split at h
  · cases h
  · rw [Option.some_inj] at h
    subst h
    rfl

lemma floodInner_gidOf (dps : List Nat)
    (tbl : List ((Nat × Nat) × (Nat × Nat))) (data : Option Nat)
    (dpid : Nat) (ports : List Nat) (acc : List Msg × Bool)
    (hacc : ∀ m ∈ acc.1, m.gidOf = none) :
    ∀ m ∈ (floodInner dps tbl data dpid ports acc).1, m.gidOf = none := by
  unfold floodInner
  refine foldl_pres_mem
    (fun acc2 : List Msg × Bool => ∀ m ∈ acc2.1, m.gidOf = none) _ _ ?_ _
    hacc
  intro acc2 port _ hacc2
  dsimp only
  repeat' split
  all_goals try exact hacc2
  rename_i heq
  intro m hm
  rcases List.mem_append.1 hm with h | h
  · exact hacc2 m h
  · rw [List.mem_singleton] at h
    subst h
    exact build_packet_out_gidOf heq

lemma flood_gidOf (dps : List Nat) (aps : List (Nat × List Nat))
    (tbl : List ((Nat × Nat) × (Nat × Nat))) (data : Option Nat) :
    ∀ m ∈ (flood dps aps tbl data).1, m.gidOf = none := by
  unfold flood
  refine foldl_pres_mem
    (fun acc : List Msg × Bool => ∀ m ∈ acc.1, m.gidOf = none) _ _ ?_ _
    (by simp)
  intro acc ent _ hacc
  dsimp only
  split
  · exact hacc
  · exact floodInner_gidOf dps tbl data ent.1 ent.2 acc hacc

lemma arp_forwarding_gidOf (dps : List Nat) (aps : List (Nat × List Nat))
    (tbl : List ((Nat × Nat) × (Nat × Nat))) (data : Option Nat)
    (dst : Nat) :
    ∀ m ∈ (arp_forwarding dps aps tbl data dst).1, m.gidOf = none := by
  unfold arp_forwarding
  rcases hloc : get_host_location tbl dst with _ | loc
  · exact flood_gidOf dps aps tbl data
  · dsimp only
    split
    · simp
    · rcases hb : build_packet_out loc.1 OFP_NO_BUFFER OFPP_CONTROLLER
          (some loc.2) data with _ | m
      · simp
      · intro m2 hm2
        rw [List.mem_singleton] at hm2
        subst hm2
        exact build_packet_out_gidOf hb

lemma mem_gidsOf {g : Nat} {msgs : List Msg} :
    g ∈ gidsOf msgs ↔ ∃ m ∈ msgs, m.gidOf = some g := by
  simp [gidsOf, List.mem_filterMap]

lemma shortest_forwarding_gids (env : Env) (g dpid in_port et src dst
    buf : Nat) (data : Option Nat) :
    ∀ gg ∈ gidsOf (shortest_forwarding env g dpid in_port et src dst buf
      data).1, gg = g ∨ gg = g + 1 := by
  unfold shortest_forwarding
  rcases hsw : get_sw env.access_ports env.net.access_table dpid in_port
      src dst with _ | _ | ⟨ssw, dsw2⟩
  · exact fun gg hgg => nomatch hgg
  · exact fun gg hgg => nomatch hgg
  · rcases dsw2 with _ | dsw
    · exact fun gg hgg => nomatch hgg
    · dsimp only
      split
      · exact fun gg hgg => nomatch hgg
      · split
        · exact fun gg hgg => nomatch hgg
        · exact fun gg hgg => nomatch hgg
        · split
          · exact fun gg hgg => nomatch hgg
          · intro gg hgg
            obtain ⟨m, hm, hgid⟩ := mem_gidsOf.1 hgg
            exact ((install_flow_stOk env.net g _ (et, src, dst,
              in_port) buf data).1 m hm).2 gg hgid

lemma packet_in_gid_cases (env : Env) (gid : Nat) (ev : PktEv) :
    (packet_in env gid ev).1 = gid ∨ (packet_in env gid ev).1 = gid + 2 := by
  unfold packet_in
  dsimp only
  repeat' split
  all_goals simp

lemma packet_in_gid_msgs (env : Env) (gid : Nat) (ev : PktEv) :
    ∀ g ∈ gidsOf (packet_in env gid ev).2.1,
      (packet_in env gid ev).1 = gid + 2 ∧ (g = gid + 2 ∨ g = gid + 3) := by
  unfold packet_in
  dsimp only
  have harp : ∀ m ∈ (match ev.arp with
      | some sd => arp_forwarding env.net.datapaths env.access_ports
          env.net.access_table ev.data sd.2
      | none => (([], false) : List Msg × Bool)).1, m.gidOf = none := by
    rcases ev.arp with _ | sd
    · simp
    · exact arp_forwarding_gidOf _ _ _ _ _
  split
  · intro g hg
    obtain ⟨m, hm, hgid⟩ := mem_gidsOf.1 hg
    rw [harp m hm] at hgid
    cases hgid
  · split
    · intro g hg
      obtain ⟨m, hm, hgid⟩ := mem_gidsOf.1 hg
      rw [harp m hm] at hgid
      cases hgid
    · split
      · intro g hg
        dsimp only at hg
        rw [gidsOf, List.filterMap_append] at hg
        rcases List.mem_append.1 hg with h | h
        · rw [← gidsOf] at h
          obtain ⟨m, hm, hgid⟩ := mem_gidsOf.1 h
          rw [harp m hm] at hgid
          cases hgid
        · rw [← gidsOf] at h
          have h2 := shortest_forwarding_gids env (gid + 2) ev.dpid
            ev.in_port ev.eth_type _ _ ev.buffer_id ev.data g h
          exact ⟨rfl, by omega⟩
      · intro g hg
        obtain ⟨m, hm, hgid⟩ := mem_gidsOf.1 hg
        rw [harp m hm] at hgid
        cases hgid

/-- A dispatcher environment over `netK3`: each switch has one access port
(`7`, `9`, `4`), and the hop-count table holds the direct paths. -/
def envK3 : Env := ⟨netK3, [(1, [7]), (2, [9]), (3, [4])],
  [(1, [(2, [[1, 2]]), (3, [[1, 3]])]), (2, [(1, [[2, 1]]), (3, [[2, 3]])]),
   (3, [(1, [[3, 1]]), (2, [[3, 2]])])]⟩

lemma runEvents_cons (env : Env) (gid : Nat) (ev : PktEv)
    (evs : List PktEv) :
    runEvents env gid (ev :: evs) =
      ((runEvents env (packet_in env gid ev).1 evs).1,
       (packet_in env gid ev).2.1 ::
         (runEvents env (packet_in env gid ev).1 evs).2) := rfl

lemma runEvents_gids_lb (env : Env) : ∀ (evs : List PktEv) (gid i : Nat),
    i < evs.length → ∀ g ∈ gidsOf ((runEvents env gid evs).2.getD i []),
      gid + 2 ≤ g := by
  intro evs
  induction evs with
  | nil =>
    intro gid i hi
    simp at hi
  | cons ev evs ih =>
    intro gid i hi g hg
    rcases i with _ | i2
    · rw [runEvents_cons] at hg
      simp only [List.getD_cons_zero] at hg
      have h := (packet_in_gid_msgs env gid ev g hg).2
      omega
    · rw [runEvents_cons] at hg
      simp only [List.getD_cons_succ] at hg
      have h1 := ih (packet_in env gid ev).1 i2 (by simpa using hi) g hg
      rcases packet_in_gid_cases env gid ev with h2 | h2 <;> omega

/-- **C6 (amended).**  The group-id discipline of the dispatcher: per
packet-in, the counter either stays (no IPv4 payload, no Ethernet header,
or an ARP-branch crash) or advances by exactly 2; whenever a GroupMod is
emitted during a handling, the counter did advance and every emitted group
id is `gid + 2` or `gid + 3` for the incoming counter value `gid`
(equivalently `g` or `g + 1` for the advanced value `g`, with no
forward/reverse attribution between the two); and over any event sequence
the group ids of distinct handlings are strictly increasing, so no id is
ever emitted in two different handlings. -/
theorem group_id_counter_discipline (env : Env) :
    (∀ (gid : Nat) (ev : PktEv),
      (packet_in env gid ev).1 = gid ∨
      (packet_in env gid ev).1 = gid + 2) ∧
    (∀ (gid : Nat) (ev : PktEv), ∀ g ∈ gidsOf (packet_in env gid ev).2.1,
      (packet_in env gid ev).1 = gid + 2 ∧ (g = gid + 2 ∨ g = gid + 3)) ∧
    (∀ (gid : Nat) (evs : List PktEv) (i j gi gj : Nat), i < j →
      j < evs.length →
      gi ∈ gidsOf ((runEvents env gid evs).2.getD i []) →
      gj ∈ gidsOf ((runEvents env gid evs).2.getD j []) → gi < gj) := by
  refine ⟨packet_in_gid_cases env, packet_in_gid_msgs env, ?_⟩
  intro gid evs
  induction evs generalizing gid with
  | nil =>
    intro i j gi gj hij hj
    simp at hj
  | cons ev evs ih =>
    intro i j gi gj hij hj hgi hgj
    rcases i with _ | i2
    · rcases j with _ | j2
      · exact absurd hij (by omega)
      · rw [runEvents_cons] at hgi hgj
        simp only [List.getD_cons_zero] at hgi
        simp only [List.getD_cons_succ] at hgj
        have h1 := packet_in_gid_msgs env gid ev gi hgi
        have h2 := runEvents_gids_lb env evs (packet_in env gid ev).1 j2
          (by simpa using hj) gj hgj
        rw [h1.1] at h2
        rcases h1.2 with h | h <;> omega
    · rcases j with _ | j2
      · exact absurd hij (by omega)
      · rw [runEvents_cons] at hgi hgj
        simp only [List.getD_cons_succ] at hgi hgj
        exact ih (packet_in env gid ev).1 i2 j2 gi gj (by omega)
          (by simpa using hj) hgi hgj

/-! ## Claim C7: unresolved hosts -/

/-- The source's resolution failure condition: `get_sw` returned `None`,
or the destination switch is unknown (`dst_sw = None`) or falsy (`0`). -/
def resolveFailsB (env : Env) (dpid in_port src dst : Nat) : Bool :=
  match get_sw env.access_ports env.net.access_table dpid in_port src dst with
  | .crash => false
  | .noneRes => true
  | .ok _ none => true
  | .ok _ (some d) => d == 0

/-- **C7 (amended).**  When host resolution fails, handling is indeed
dropped silently — `shortest_forwarding` emits nothing and does not crash —
but the group-id counter is *not* left unchanged: the IPv4 branch runs
`self.gid += 2` before resolving, so the counter still advances by 2. -/
theorem unresolved_ipv4_drops_silently_but_advances_counter
    (env : Env) (gid : Nat) (dpid in_port et src dst buf : Nat)
    (data : Option Nat)
    (h : resolveFailsB env dpid in_port src dst = true) :
    (∀ g : Nat, shortest_forwarding env g dpid in_port et src dst buf data
      = ([], false)) ∧
    packet_in env gid
      ⟨dpid, in_port, none, some (src, dst), true, et, buf, data⟩ =
      (gid + 2, [], false) := by
  have hsf : ∀ g : Nat, shortest_forwarding env g dpid in_port et src dst
      buf data = ([], false) := by
    intro g
    unfold resolveFailsB at h
    unfold shortest_forwarding
    cases hsw : get_sw env.access_ports env.net.access_table dpid in_port
        src dst with
    | crash =>
      rw [hsw] at h
      cases h
    | noneRes => rfl
    | ok ssw dsw2 =>
      rw [hsw] at h
      rcases dsw2 with _ | dsw
      · rfl
      · have hd : dsw = 0 := by simpa using h
        simp [hd]
  refine ⟨hsf, ?_⟩
  unfold packet_in
  dsimp only
  rw [hsf (gid + 2)]
  rfl

/-- **C7 (counterexample).**  A concrete unresolved IPv4 packet-in
(destination `200` has no host record): nothing is emitted, yet the
counter advances from `0` to `2` — the claim's "counter left unchanged" is
false. -/
theorem unresolved_ipv4_counter_counterexample :
    resolveFailsB envK3 1 7 101 200 = true ∧
    packet_in envK3 0
      ⟨1, 7, none, some (101, 200), true, 2048, 99, some 55⟩ =
      (2, [], false) ∧
    ¬ (packet_in envK3 0
        ⟨1, 7, none, some (101, 200), true, 2048, 99, some 55⟩).1 = 0 := by
  decide

/-! ## Claim C9: ARP flooding -/

/-- The flooding pattern of the spec: one PacketOut per access port whose
`(dpid, port)` is not a key of the access table. -/
def floodSpec (tbl : List ((Nat × Nat) × (Nat × Nat)))
    (aps : List (Nat × List Nat)) : List Msg :=
  aps.flatMap (fun ent =>
    (ent.2.filter (fun port =>
      (tbl.find? (fun kv => kv.1 == (ent.1, port))).isNone)).map
      (fun port => Msg.packetOut ent.1 OFP_NO_BUFFER OFPP_CONTROLLER
        (if port = 0 then [] else [port]) true))

lemma floodInner_eq (datapaths : List Nat)
    (tbl : List ((Nat × Nat) × (Nat × Nat))) (d dpid : Nat)
    (hdp : dpid ∈ datapaths) :
    ∀ (ports : List Nat) (acc : List Msg),
      floodInner datapaths tbl (some d) dpid ports (acc, false) =
        (acc ++ (ports.filter (fun port =>
          (tbl.find? (fun kv => kv.1 == (dpid, port))).isNone)).map
            (fun port => Msg.packetOut dpid OFP_NO_BUFFER OFPP_CONTROLLER
              (if port = 0 then [] else [port]) true), false) := by
  intro ports
  induction ports with
  | nil =>
    intro acc
    simp [floodInner]
  | cons p ps ih =>
    intro acc
    rcases hfind : tbl.find? (fun kv => kv.1 == (dpid, p)) with _ | kv
    · have hstep : floodInner datapaths tbl (some d) dpid (p :: ps)
          (acc, false) = floodInner datapaths tbl (some d) dpid ps
          (acc ++ [Msg.packetOut dpid OFP_NO_BUFFER OFPP_CONTROLLER
            (if p = 0 then [] else [p]) true], false) := by
        rw [floodInner, List.foldl_cons, ← floodInner]
        simp [hfind, hdp, build_packet_out, OFP_NO_BUFFER]
      rw [hstep, ih]
      simp [hfind, List.filter_cons]
    · have hstep : floodInner datapaths tbl (some d) dpid (p :: ps)
          (acc, false) = floodInner datapaths tbl (some d) dpid ps
          (acc, false) := by
        rw [floodInner, List.foldl_cons, ← floodInner]
        simp [hfind]
      rw [hstep, ih]
      simp [hfind, List.filter_cons]

lemma flood_eq (datapaths : List Nat) (aps : List (Nat × List Nat))
    (tbl : List ((Nat × Nat) × (Nat × Nat))) (d : Nat)
    (hdp : ∀ e ∈ aps, e.1 ∈ datapaths) :
    flood datapaths aps tbl (some d) = (floodSpec tbl aps, false) := by
  unfold flood
  suffices h : ∀ (aps2 : List (Nat × List Nat)) (acc : List Msg),
      (∀ e ∈ aps2, e.1 ∈ datapaths) →
      aps2.foldl (fun acc ent => if acc.2 then acc
        else floodInner datapaths tbl (some d) ent.1 ent.2 acc) (acc, false)
        = (acc ++ floodSpec tbl aps2, false) by
    simpa using h aps [] hdp
  intro aps2
  induction aps2 with
  | nil =>
    intro acc _
    simp [floodSpec]
  | cons ent rest ih =>
    intro acc hdp2
    rw [List.foldl_cons]
    have h1 : (if (((acc, false) : List Msg × Bool)).2 = true
        then ((acc, false) : List Msg × Bool)
        else floodInner datapaths tbl (some d) ent.1 ent.2 (acc, false))
        = (acc ++ (ent.2.filter (fun port =>
            (tbl.find? (fun kv => kv.1 == (ent.1, port))).isNone)).map
            (fun port => Msg.packetOut ent.1 OFP_NO_BUFFER OFPP_CONTROLLER
              (if port = 0 then [] else [port]) true), false) := by
      rw [if_neg (by simp)]
      exact floodInner_eq datapaths tbl d ent.1
        (hdp2 ent (List.mem_cons_self ent rest)) ent.2 acc
    rw [h1, ih _ (fun e he => hdp2 e (List.mem_cons_of_mem ent he))]
    simp [floodSpec, List.append_assoc]

/-- A PacketOut flooding the frame out `(dpid, port)`. -/
def isFloodOut (dpid port : Nat) (m : Msg) : Bool :=
  m == Msg.packetOut dpid OFP_NO_BUFFER OFPP_CONTROLLER [port] true

lemma countP_filter_mem (cond : Nat → Bool) (port : Nat) :
    ∀ l : List Nat, l.Nodup →
    (l.filter cond).countP (fun q => q == port) =
      if port ∈ l ∧ cond port = true then 1 else 0 := by
  intro l
  induction l with
  | nil =>
    intro h
    simp
  | cons a l ih =>
    intro hnd
    rcases List.nodup_cons.mp hnd with ⟨ha, hl⟩
    rw [List.filter_cons]
    by_cases hc : cond a = true
    · rw [if_pos hc, List.countP_cons, ih hl]
      split_ifs <;> simp_all [List.mem_cons]
    · rw [if_neg hc, ih hl]
      by_cases h1 : port ∈ l ∧ cond port = true
      · rw [if_pos h1, if_pos ⟨List.mem_cons_of_mem a h1.1, h1.2⟩]
      · rw [if_neg h1]
        by_cases h2 : port ∈ a :: l ∧ cond port = true
        · rcases h2 with ⟨hm, hcp⟩
          rcases List.mem_cons.1 hm with rfl | hm2
          · exact absurd hcp hc
          · exact absurd ⟨hm2, hcp⟩ h1
        · rw [if_neg h2]

lemma floodSpec_count (tbl : List ((Nat × Nat) × (Nat × Nat))) :
    ∀ (aps : List (Nat × List Nat)), (aps.map Prod.fst).Nodup →
    (∀ e ∈ aps, e.2.Nodup) → ∀ (dpid port : Nat), port ≠ 0 →
    (floodSpec tbl aps).countP (isFloodOut dpid port) =
      (if (∃ e ∈ aps, e.1 = dpid ∧ port ∈ e.2) ∧
          (tbl.find? (fun kv => kv.1 == (dpid, port))).isNone = true
        then 1 else 0) := by
  intro aps
  induction aps with
  | nil =>
    intro _ _ dpid port hp
    simp [floodSpec]
  | cons ent rest ih =>
    intro hkeys hports dpid port hp
    rw [floodSpec, List.flatMap_cons, ← floodSpec, List.countP_append]
    have hkey2 : (rest.map Prod.fst).Nodup := (List.nodup_cons.1 hkeys).2
    have hrest := ih hkey2
      (fun e he => hports e (List.mem_cons_of_mem ent he)) dpid port hp
    by_cases hd : ent.1 = dpid
    · subst hd
      have hnotin : ¬ ∃ e ∈ rest, e.1 = ent.1 ∧ port ∈ e.2 := by
        rintro ⟨e, he, he1, -⟩
        have h2 : ent.1 ∉ rest.map Prod.fst := (List.nodup_cons.1 hkeys).1
        exact h2 (by
          rw [← he1]
          exact List.mem_map_of_mem Prod.fst he)
      rw [hrest, if_neg (fun hcon => hnotin hcon.1), Nat.add_zero]
      have hfun : ∀ q ∈ ent.2.filter (fun q2 =>
          (tbl.find? (fun kv => kv.1 == (ent.1, q2))).isNone),
          (isFloodOut ent.1 port ∘ (fun q2 =>
            Msg.packetOut ent.1 OFP_NO_BUFFER OFPP_CONTROLLER
              (if q2 = 0 then [] else [q2]) true)) q = (q == port) := by
        intro q _
        simp only [Function.comp]
        by_cases hq : q = port
        · subst hq
          simp [isFloodOut, hp]
        · by_cases h0 : q = 0
          · subst h0
            simp [isFloodOut, hq, Ne.symm hp]
          · simp [isFloodOut, hq, h0]
      rw [List.countP_map,
        List.countP_congr (fun x hx => by rw [hfun x hx]),
        countP_filter_mem _ _ ent.2
          (hports ent (List.mem_cons_self ent rest))]
      have hiff : (port ∈ ent.2 ∧ (tbl.find? (fun kv =>
          kv.1 == (ent.1, port))).isNone = true) ↔
          ((∃ e ∈ ent :: rest, e.1 = ent.1 ∧ port ∈ e.2) ∧
            (tbl.find? (fun kv => kv.1 == (ent.1, port))).isNone = true) := by
        constructor
        · rintro ⟨hm, hn⟩
          exact ⟨⟨ent, List.mem_cons_self ent rest, rfl, hm⟩, hn⟩
        · rintro ⟨⟨e, he, he1, hpe⟩, hn⟩
          rcases List.mem_cons.1 he with rfl | he2
          · exact ⟨hpe, hn⟩
          · exact absurd ⟨e, he2, he1, hpe⟩ hnotin
      exact if_congr hiff rfl rfl
    · have hz : ((ent.2.filter (fun q =>
          (tbl.find? (fun kv => kv.1 == (ent.1, q))).isNone)).map
          (fun q => Msg.packetOut ent.1 OFP_NO_BUFFER OFPP_CONTROLLER
            (if q = 0 then [] else [q]) true)).countP
            (isFloodOut dpid port) = 0 := by
        rw [List.countP_eq_zero]
        intro m hm
        obtain ⟨q, -, hq⟩ := List.mem_map.1 hm
        subst hq
        simp [isFloodOut, hd]
      rw [hz, Nat.zero_add, hrest]
      have hiff : ((∃ e ∈ rest, e.1 = dpid ∧ port ∈ e.2) ∧
          (tbl.find? (fun kv => kv.1 == (dpid, port))).isNone = true) ↔
          ((∃ e ∈ ent :: rest, e.1 = dpid ∧ port ∈ e.2) ∧
            (tbl.find? (fun kv => kv.1 == (dpid, port))).isNone = true) := by
        constructor
        · rintro ⟨⟨e, he, hh⟩, hn⟩
          exact ⟨⟨e, List.mem_cons_of_mem ent he, hh⟩, hn⟩
        · rintro ⟨⟨e, he, he1, hpe⟩, hn⟩
          rcases List.mem_cons.1 he with rfl | he2
          · exact absurd he1 hd
          · exact ⟨⟨e, he2, he1, hpe⟩, hn⟩
      exact if_congr hiff rfl rfl

/-- **C9 (amended).**  On an ARP destination miss the dispatcher floods:
with all access switches registered and the frame bytes present, exactly
one PacketOut is sent out of every access port that is not a key of the
access table — including the port the frame arrived on, which the source
never excludes. -/
theorem arp_miss_floods_every_unlearned_access_port
    (datapaths : List Nat) (aps : List (Nat × List Nat))
    (tbl : List ((Nat × Nat) × (Nat × Nat))) (d dst : Nat)
    (hmiss : get_host_location tbl dst = none)
    (hdp : ∀ e ∈ aps, e.1 ∈ datapaths)
    (hkeys : (aps.map Prod.fst).Nodup)
    (hports : ∀ e ∈ aps, e.2.Nodup)
    (dpid port : Nat) (hp : port ≠ 0) :
    arp_forwarding datapaths aps tbl (some d) dst =
      (floodSpec tbl aps, false) ∧
    (arp_forwarding datapaths aps tbl (some d) dst).1.countP
        (isFloodOut dpid port) =
      (if (∃ e ∈ aps, e.1 = dpid ∧ port ∈ e.2) ∧
          (tbl.find? (fun kv => kv.1 == (dpid, port))).isNone = true
        then 1 else 0) := by
  have h1 : arp_forwarding datapaths aps tbl (some d) dst
      = flood datapaths aps tbl (some d) := by
    unfold arp_forwarding
    rw [hmiss]
  rw [h1, flood_eq datapaths aps tbl d hdp]
  exact ⟨rfl, floodSpec_count tbl aps hkeys hports dpid port hp⟩

/-- Witness for the amended C9 at a concrete miss: the unlearned access
port `(1, 5)` receives exactly one copy. -/
theorem arp_miss_floods_every_unlearned_access_port_witness :
    arp_forwarding [1] [(1, [5, 6])] [] (some 55) 200 =
      (floodSpec [] [(1, [5, 6])], false) ∧
    (arp_forwarding [1] [(1, [5, 6])] [] (some 55) 200).1.countP
        (isFloodOut 1 5) =
      (if (∃ e ∈ [((1 : Nat), [(5 : Nat), 6])], e.1 = 1 ∧ 5 ∈ e.2) ∧
          (([] : List ((Nat × Nat) × (Nat × Nat))).find?
            (fun kv => kv.1 == (1, 5))).isNone = true
        then 1 else 0) :=
  arp_miss_floods_every_unlearned_access_port [1] [(1, [5, 6])] [] 55 200
    rfl (by decide) (by decide) (by decide) 1 5 (by decide)

/-- **C9 (counterexample).**  The frame that arrived on access port
`(1, 5)` (still unlearned) is flooded back out that same port: the claim's
"never sent back out the port it arrived on" is false. -/
theorem flood_sends_frame_out_arrival_port :
    (arp_forwarding [1] [(1, [5, 6])] [] (some 55) 200).1 =
      [Msg.packetOut 1 OFP_NO_BUFFER OFPP_CONTROLLER [5] true,
       Msg.packetOut 1 OFP_NO_BUFFER OFPP_CONTROLLER [6] true] ∧
    (arp_forwarding [1] [(1, [5, 6])] [] (some 55) 200).1.countP
      (isFloodOut 1 5) = 1 := by
  decide



/-- Witness for the amended C6 at a concrete handled packet-in. -/
theorem group_id_counter_discipline_witness :
    (packet_in envK3 0 ⟨1, 7, none, some (101, 102), true, 2048, 99,
      some 55⟩).1 = 0 + 2 ∧
    ((2 : Nat) = 0 + 2 ∨ (2 : Nat) = 0 + 3) :=
  (group_id_counter_discipline envK3).2.1 0
    ⟨1, 7, none, some (101, 102), true, 2048, 99, some 55⟩ 2 (by decide)

/-- Witness for the amended C7 at a concrete unresolved destination. -/
theorem unresolved_ipv4_drops_silently_but_advances_counter_witness :
    (∀ g : Nat, shortest_forwarding envK3 g 1 7 2048 101 200 99 (some 55)
      = ([], false)) ∧
    packet_in envK3 5 ⟨1, 7, none, some (101, 200), true, 2048, 99,
      some 55⟩ = (5 + 2, [], false) :=
  unresolved_ipv4_drops_silently_but_advances_counter envK3 5 1 7 2048 101
    200 99 (some 55) (by decide)

/-- Witness for the amended C5: the trace of a fully programmed two-switch
run holds no PacketOut, and a concretely built `_build_packet_out` message
carries raw data exactly because its buffer id is `OFP_NO_BUFFER`. -/
theorem install_flow_no_packet_out_witness :
    (install_flow netK3 2 [[1, 2]] (2048, 101, 102, 7) 99
      (some 55)).msgs.countP Msg.isPacketOut = 0 ∧
    (((Msg.packetOut 1 OFP_NO_BUFFER 5 [6] true).withDataOf = some true ↔
        OFP_NO_BUFFER = OFP_NO_BUFFER) ∧
      (OFP_NO_BUFFER = OFP_NO_BUFFER → (some 7 : Option Nat) ≠ none)) :=
  ⟨(install_flow_no_packet_out netK3 2 [[1, 2]] (2048, 101, 102, 7) 99 99
      (some 55) (some 55)).1,
   (install_flow_no_packet_out netK3 2 [[1, 2]] (2048, 101, 102, 7) 99 99
      (some 55) (some 55)).2.2 1 OFP_NO_BUFFER 5 (some 6) (some 7)
      (Msg.packetOut 1 OFP_NO_BUFFER 5 [6] true) (by decide)⟩

/-! ## Claim C3: directions, cycles and the return stitching -/

lemma pyGet_inbounds {α : Type} (l : List α) (i : Nat) (d : α)
    (h : i < l.length) : pyGet l (i : Int) = some (l.getD i d) := by
  unfold pyGet
  rw [if_pos (Int.natCast_nonneg i), Int.toNat_natCast,
    List.getD_eq_getElem l d h, List.get?_eq_getElem?,
    List.getElem?_eq_getElem h]

lemma pyGet_wrap (C : List Nat) (i : Int) (hlo : -1 ≤ i)
    (hhi : i ≤ (C.length : Int)) (hk : 0 < C.length) :
    (pyGet C i).getD (C.getD 0 0) =
      C.getD (i % (C.length : Int)).toNat 0 := by
  rcases lt_or_le i 0 with hneg | hpos
  · have hi : i = -1 := by omega
    subst hi
    have h1 : pyGet C (-1) = some (C.getD (C.length - 1) 0) := by
      unfold pyGet
      rw [if_neg (by omega), if_pos (by omega)]
      have h2 : (-(-1 : Int)).toNat = 1 := by decide
      rw [h2, List.get?_eq_getElem?,
        List.getElem?_eq_getElem (by omega : C.length - 1 < C.length),
        List.getD_eq_getElem C 0 (by omega : C.length - 1 < C.length)]
    rw [h1]
    have h3 : ((-1 : Int) % (C.length : Int)) = (C.length : Int) - 1 := by
      rw [show (-1 : Int) = ((C.length : Int) - 1) +
        (C.length : Int) * (-1) by ring, Int.add_mul_emod_self_left,
        Int.emod_eq_of_lt (by omega) (by omega)]
    rw [h3]
    have h4 : ((C.length : Int) - 1).toNat = C.length - 1 := by omega
    rw [h4]
    rfl
  · rcases lt_or_le i (C.length : Int) with hin | hout
    · obtain ⟨n, rfl⟩ := Int.eq_ofNat_of_zero_le hpos
      have hn : n < C.length := by omega
      rw [pyGet_inbounds C n 0 hn]
      have h3 : (((n : Int)) % (C.length : Int)) = (n : Int) :=
        Int.emod_eq_of_lt (by omega) (by omega)
      rw [h3, Int.toNat_natCast]
      rfl
    · have hi : i = (C.length : Int) := by omega
      subst hi
      have h1 : pyGet C (C.length : Int) = none := by
        unfold pyGet
        rw [if_pos (Int.natCast_nonneg _), Int.toNat_natCast]
        exact List.get?_eq_none.2 (le_refl _)
      rw [h1]
      rw [Int.emod_self]
      rfl

/-- The per-vertex stitch messages of the spec: at the first position `p`
of `w` in `C`, glue a forward and backward entry between the port facing
the predecessor `C[(p − d) mod k]` and the port facing the successor
`C[(p + d) mod k]` under the recorded direction `d`; nothing for on-path
vertices or unknown links. -/
def stitchVertexSpec (e : IFEnv) (C : List Nat) (d : Int) (w : Nat) :
    List Msg :=
  if w ∈ e.path then []
  else
    match pyIndexOpt C w with
    | none => []
    | some p =>
      match get_port_pair_from_link e.net.link_to_port
          (C.getD (((p : Int) - d) % (C.length : Int)).toNat 0)
          (C.getD p 0),
        get_port_pair_from_link e.net.link_to_port (C.getD p 0)
          (C.getD (((p : Int) + d) % (C.length : Int)).toNat 0) with
      | some q1, some q2 =>
        [send_flow_mod (C.getD p 0) e.fi q1.2 q2.1 0,
         send_flow_mod (C.getD p 0) e.bi q2.1 q1.2 0]
      | _, _ => []

/-- The whole return-stitch trace of the spec, cycle by cycle. -/
def stitchSpec (e : IFEnv) (P : List (List Nat)) (D : List Int) :
    List Msg :=
  (List.range P.length).flatMap (fun j =>
    (P.getD j []).flatMap (stitchVertexSpec e (P.getD j []) (D.getD j 0)))

lemma bpStitchVertex_eq (e : IFEnv) (j : Nat) (C : List Nat) (d : Int)
    (hd : d = -1 ∨ d = 1) (hdp : ∀ w ∈ C, w ∈ e.net.datapaths)
    (t : IFSt) (w : Nat) (hw : w ∈ C) (hcr : t.crashed = false)
    (hget : t.cir_dir.get? j = some d) :
    bpStitchVertex e j C t w =
      { t with msgs := t.msgs ++ stitchVertexSpec e C d w } := by
  have hk : 0 < C.length := List.length_pos.2 (by rintro rfl; cases hw)
  unfold bpStitchVertex stitchVertexSpec
  rw [if_neg (by simp [hcr])]
  by_cases hwp : w ∈ e.path
  · rw [if_pos hwp, if_pos hwp]
    cases t
    simp
  · rw [if_neg hwp, if_neg hwp]
    have hidx : pyIndexOpt C w = some (C.indexOf w) := by
      unfold pyIndexOpt
      rw [if_pos hw]
    rw [hidx]
    dsimp only
    have hp : C.indexOf w < C.length := List.indexOf_lt_length.2 hw
    have hgp : C.getD (C.indexOf w) 0 = w := by
      rw [List.getD_eq_getElem C 0 hp]
      exact List.getElem_indexOf hp
    rw [hget]
    dsimp only
    have hport : (match pyGet C ((C.indexOf w : Int) - d) with
        | none => get_port_pair_from_link e.net.link_to_port (C.getD 0 0)
            (C.getD (C.indexOf w) 0)
        | some prev => get_port_pair_from_link e.net.link_to_port prev
            (C.getD (C.indexOf w) 0)) =
        get_port_pair_from_link e.net.link_to_port
          (C.getD (((C.indexOf w : Int) - d) % (C.length : Int)).toNat 0)
          (C.getD (C.indexOf w) 0) := by
      have hwr := pyGet_wrap C ((C.indexOf w : Int) - d)
        (by rcases hd with rfl | rfl <;> omega)
        (by rcases hd with rfl | rfl <;> omega) hk
      rcases hx : pyGet C ((C.indexOf w : Int) - d) with _ | prev <;>
        rw [hx] at hwr
      · rw [Option.getD_none] at hwr
        rw [← hwr]
      · rw [Option.getD_some] at hwr
        rw [← hwr]
    have hportn : (match pyGet C ((C.indexOf w : Int) + d) with
        | none => get_port_pair_from_link e.net.link_to_port
            (C.getD (C.indexOf w) 0) (C.getD 0 0)
        | some nxt => get_port_pair_from_link e.net.link_to_port
            (C.getD (C.indexOf w) 0) nxt) =
        get_port_pair_from_link e.net.link_to_port
          (C.getD (C.indexOf w) 0)
          (C.getD (((C.indexOf w : Int) + d) % (C.length : Int)).toNat 0)
        := by
      have hwr := pyGet_wrap C ((C.indexOf w : Int) + d)
        (by rcases hd with rfl | rfl <;> omega)
        (by rcases hd with rfl | rfl <;> omega) hk
      rcases hx : pyGet C ((C.indexOf w : Int) + d) with _ | nxt <;>
        rw [hx] at hwr
      · rw [Option.getD_none] at hwr
        rw [← hwr]
      · rw [Option.getD_some] at hwr
        rw [← hwr]
    rw [hport, hportn]
    rcases h1 : get_port_pair_from_link e.net.link_to_port
        (C.getD (((C.indexOf w : Int) - d) % (C.length : Int)).toNat 0)
        (C.getD (C.indexOf w) 0) with _ | q1
    · cases t
      simp
    · rcases h2 : get_port_pair_from_link e.net.link_to_port
          (C.getD (C.indexOf w) 0)
          (C.getD (((C.indexOf w : Int) + d) % (C.length : Int)).toNat 0)
          with _ | q2
      · cases t
        simp
      · dsimp only
        rw [if_neg (by
          rw [hgp]
          simp [hdp w hw])]
        cases t
        simp [emit]

lemma stitchCycle_eq (e : IFEnv) (j : Nat) (C : List Nat) (d : Int)
    (hd : d = -1 ∨ d = 1) (hdp : ∀ w ∈ C, w ∈ e.net.datapaths) :
    ∀ (l : List Nat), (∀ w ∈ l, w ∈ C) →
    ∀ (t : IFSt), t.crashed = false → t.cir_dir.get? j = some d →
      l.foldl (bpStitchVertex e j C) t =
        { t with msgs := t.msgs ++ l.flatMap (stitchVertexSpec e C d) } := by
  intro l
  induction l with
  | nil =>
    intro _ t ht _
    cases t
    simp
  | cons w ws ih =>
    intro hmem t ht hq
    rw [List.foldl_cons,
      bpStitchVertex_eq e j C d hd hdp t w (hmem w (List.mem_cons_self w ws))
        ht hq,
      ih (fun w2 h2 => hmem w2 (List.mem_cons_of_mem w h2))
        { t with msgs := t.msgs ++ stitchVertexSpec e C d w } ht hq]
    cases t
    simp [List.flatMap_cons]

lemma bpStitch_eq (e : IFEnv) (s0 : IFSt)
    (hcr : s0.crashed = false)
    (hlen : s0.path_cir.length = s0.cir_dir.length)
    (hdir : ∀ d ∈ s0.cir_dir, d = -1 ∨ d = 1)
    (hdp : ∀ C ∈ s0.path_cir, ∀ w ∈ C, w ∈ e.net.datapaths) :
    bpStitch e s0 =
      { s0 with msgs := s0.msgs ++ stitchSpec e s0.path_cir s0.cir_dir } := by
  unfold bpStitch stitchSpec
  suffices h : ∀ (js : List Nat), (∀ j ∈ js, j < s0.path_cir.length) →
      ∀ (t : IFSt), t.crashed = false → t.path_cir = s0.path_cir →
        t.cir_dir = s0.cir_dir →
      js.foldl (fun s j =>
        if s.crashed then s
        else
          let C := s.path_cir.getD j []
          C.foldl (bpStitchVertex e j C) s) t =
        { t with msgs := t.msgs ++ js.flatMap (fun j =>
          (s0.path_cir.getD j []).flatMap (stitchVertexSpec e
            (s0.path_cir.getD j []) (s0.cir_dir.getD j 0))) } by
    exact h (List.range s0.path_cir.length)
      (fun j hj => List.mem_range.1 hj) s0 hcr rfl rfl
  intro js
  induction js with
  | nil =>
    intro _ t ht _ _
    cases t
    simp
  | cons j js ih =>
    intro hjs t ht hP hD
    have hj : j < s0.path_cir.length := hjs j (List.mem_cons_self j js)
    have hCmem : s0.path_cir.getD j [] ∈ s0.path_cir := by
      rw [List.getD_eq_getElem s0.path_cir [] hj]
      exact List.getElem_mem _
    have hdmem : s0.cir_dir.getD j 0 ∈ s0.cir_dir := by
      rw [List.getD_eq_getElem s0.cir_dir 0 (by omega : j < s0.cir_dir.length)]
      exact List.getElem_mem _
    have hget : t.cir_dir.get? j = some (s0.cir_dir.getD j 0) := by
      rw [hD, List.get?_eq_getElem?,
        List.getElem?_eq_getElem (by omega : j < s0.cir_dir.length),
        List.getD_eq_getElem s0.cir_dir 0 (by omega : j < s0.cir_dir.length)]
    rw [List.foldl_cons, if_neg (by simp [ht])]
    dsimp only
    rw [hP]
    rw [stitchCycle_eq e j (s0.path_cir.getD j []) (s0.cir_dir.getD j 0)
      (hdir _ hdmem) (hdp _ hCmem) (s0.path_cir.getD j [])
      (fun w hw => hw) t ht hget]
    rw [ih (fun j2 h2 => hjs j2 (List.mem_cons_of_mem j h2))
      { t with msgs := t.msgs ++ ((s0.path_cir.getD j []).flatMap
        (stitchVertexSpec e (s0.path_cir.getD j [])
          (s0.cir_dir.getD j 0))) } ht hP hD]
    cases t
    simp only at hP hD
    subst hP
    subst hD
    simp [List.flatMap_cons]



/-- A four-switch network whose path `[1, 2, 3]` uses two catalogue cycles
`[1, 2, 6]` and `[2, 3, 6]` sharing the off-path switch `6`. -/
def netC3 : Net :=
  { datapaths := [1, 2, 3, 6]
    link_to_port := [((1,2),(12,21)), ((2,1),(21,12)), ((2,3),(23,32)),
                     ((3,2),(32,23)), ((1,6),(16,61)), ((6,1),(61,16)),
                     ((2,6),(26,62)), ((6,2),(62,26)), ((3,6),(36,63)),
                     ((6,3),(63,36))]
    cir_list := [[1,2,6], [2,3,6]]
    access_table := [((1,7),(101,0)), ((3,9),(102,0))] }

/-- A FlowMod installed on `dpid` matching `info`, whatever its ports. -/
def isFwdEntryOn (dpid : Nat) (info : MatchInfo) : Msg → Bool
  | .flowMod d i _ _ _ => d == dpid && i == info
  | _ => false

/-- **C3 (amended).**  After a non-crashing `install_flow` the recorded
cycles and directions line up (`path_cir` and `cir_dir` have equal length
and every direction is `±1`); and on any state with these invariants whose
cycle vertices are all registered, the return stitch appends, cycle by
cycle and per occurrence of each off-path vertex `w` (at its first index
`p` in the recorded cycle `C`), exactly one forward and one backward entry
on `w` gluing the port facing `C[(p − d) mod k]` to the port facing
`C[(p + d) mod k]` under that cycle's recorded direction `d` — per *used
cycle*, not once per vertex overall. -/
theorem install_flow_directions_align_and_stitch_glues :
    (∀ (net : Net) (gid : Nat) (paths : List (List Nat))
        (fi4 : Nat × Nat × Nat × Nat) (buf : Nat) (data : Option Nat),
      (install_flow net gid paths fi4 buf data).crashed = false →
        (install_flow net gid paths fi4 buf data).path_cir.length =
          (install_flow net gid paths fi4 buf data).cir_dir.length ∧
        (∀ d ∈ (install_flow net gid paths fi4 buf data).cir_dir,
          d = -1 ∨ d = 1)) ∧
    (∀ (e : IFEnv) (s0 : IFSt), s0.crashed = false →
      s0.path_cir.length = s0.cir_dir.length →
      (∀ d ∈ s0.cir_dir, d = -1 ∨ d = 1) →
      (∀ C ∈ s0.path_cir, ∀ w ∈ C, w ∈ e.net.datapaths) →
      bpStitch e s0 =
        { s0 with msgs := s0.msgs ++
            stitchSpec e s0.path_cir s0.cir_dir }) := by
  constructor
  · intro net gid paths fi4 buf data hcr
    have h := install_flow_stOk net gid paths fi4 buf data
    exact ⟨h.2.1 hcr, h.2.2.1⟩
  · intro e s0 h1 h2 h3 h4
    exact bpStitch_eq e s0 h1 h2 h3 h4

/-- Witness for the amended C3: the stitch equation evaluated on the walk
state of the `netC3` run. -/
theorem install_flow_directions_align_and_stitch_glues_witness :
    bpStitch (mkIFEnv netC3 2 [1, 2, 3] (2048, 101, 102, 7))
        ⟨[], [[1, 2, 6], [2, 3, 6]], [-1, -1], some 6, [], false⟩ =
      { (⟨[], [[1, 2, 6], [2, 3, 6]], [-1, -1], some 6, [],
          false⟩ : IFSt) with
        msgs := (⟨[], [[1, 2, 6], [2, 3, 6]], [-1, -1], some 6, [],
            false⟩ : IFSt).msgs ++
          stitchSpec (mkIFEnv netC3 2 [1, 2, 3] (2048, 101, 102, 7))
            [[1, 2, 6], [2, 3, 6]] [-1, -1] } :=
  install_flow_directions_align_and_stitch_glues.2
    (mkIFEnv netC3 2 [1, 2, 3] (2048, 101, 102, 7))
    ⟨[], [[1, 2, 6], [2, 3, 6]], [-1, -1], some 6, [], false⟩
    rfl (by decide) (by decide) (by decide)

/-- **C3 (counterexample to "exactly one per vertex").**  In `netC3` the
off-path switch `6` sits on both used cycles, so the non-crashing run
installs *two* forward and *two* backward entries on it. -/
theorem install_flow_offpath_vertex_double_stitch :
    (install_flow netC3 2 [[1, 2, 3]] (2048, 101, 102, 7) 99
      (some 55)).crashed = false ∧
    (install_flow netC3 2 [[1, 2, 3]] (2048, 101, 102, 7) 99
      (some 55)).path_cir = [[1, 2, 6], [2, 3, 6]] ∧
    ((6 : Nat) ∉ ([1, 2, 3] : List Nat)) ∧
    (install_flow netC3 2 [[1, 2, 3]] (2048, 101, 102, 7) 99
      (some 55)).msgs.countP (isFwdEntryOn 6 (2048, 101, 102)) = 2 ∧
    (install_flow netC3 2 [[1, 2, 3]] (2048, 101, 102, 7) 99
      (some 55)).msgs.countP (isFwdEntryOn 6 (2048, 102, 101)) = 2 := by
  decide

end Ryu
